import Mathlib

/-!
OpenAI2Ollama: a verification development of `src/index.js`.

The translation and streaming engine of the proxy is embedded as Lean
definitions, one per JavaScript function or handler, and the statements of the
specification are proved (or refuted) on those definitions.

Conventions of the embedding.
* JavaScript values are the type `JsVal`; numbers are rationals (every JSON
  number and every value this program computes is one). The program tests
  numbers for zero, passes them on, and multiplies and floors them; the
  rounding of a product to a double is the parameter `Rounding`.
* A JavaScript exception is `none` in an `Option`.
* The host functions the program calls (`JSON.parse`, `Date`, `Math.random`,
  the HTTP client) are parameters: the records `Env` and `CatalogEnv` and the
  outcome `Upstream` of the upstream request.
* Definitions come first (the program, then the vocabulary of the
  specification, then concrete examples), theorems after them.
-/

namespace OpenAI2Ollama

/-! ## JavaScript values -/

/-- JavaScript values as far as this program meets them: what `JSON.parse`
yields, `undefined`, and `host` for a built-in function or object of the
runtime (such as the members of `Object.prototype`). -/
inductive JsVal where
  | undefined : JsVal
  | null : JsVal
  | bool (b : Bool) : JsVal
  | num (q : ℚ) : JsVal
  | str (s : String) : JsVal
  | arr (items : List JsVal) : JsVal
  | obj (fields : List (String × JsVal)) : JsVal
  | host (name : String) : JsVal

namespace JsVal

instance : Inhabited JsVal := ⟨JsVal.undefined⟩

/-- JavaScript `ToBoolean`: the falsy values are `undefined`, `null`, `false`,
zero and the empty string. -/
def truthy : JsVal → Bool
  | undefined => false
  | null => false
  | bool b => b
  | num q => decide (q ≠ 0)
  | str s => decide (s ≠ "")
  | arr _ => true
  | obj _ => true
  | host _ => true

/-- The expression `a || b`. -/
def or (a b : JsVal) : JsVal := if a.truthy then a else b

/-- Is the value `null` or `undefined`? -/
def nullish : JsVal → Bool
  | undefined => true
  | null => true
  | _ => false

/-- Own property `key` of a value that is not nullish. The fixed keys this
program reads (`model`, `choices`, `delta`, `content`, ...) are members of no
built-in prototype, so for them own lookup is the whole of property access;
primitives, arrays and host values have none of them. -/
def own (v : JsVal) (key : String) : JsVal :=
  match v with
  | obj fields => (fields.lookup key).getD undefined
  | _ => undefined

/-- The expression `v.key`: a `TypeError` when `v` is nullish. -/
def prop (v : JsVal) (key : String) : Option JsVal :=
  if v.nullish then none else some (v.own key)

/-- The expression `v?.key`. -/
def optProp (v : JsVal) (key : String) : JsVal :=
  if v.nullish then undefined else v.own key

/-- Element `0` of a value that is not nullish: the first element of an array,
the member named `0` of an object, the first character of a string. -/
def first (v : JsVal) : JsVal :=
  match v with
  | arr items => items.headD undefined
  | obj fields => (fields.lookup "0").getD undefined
  | str s => match s.data with
    | [] => undefined
    | c :: _ => str (String.mk [c])
  | _ => undefined

/-- The expression `v[0]`: a `TypeError` when `v` is nullish. -/
def index0 (v : JsVal) : Option JsVal :=
  if v.nullish then none else some v.first

/-- The expression `v?.[0]`. -/
def optIndex0 (v : JsVal) : JsVal :=
  if v.nullish then undefined else v.first

/-- A natural number as a JavaScript number. -/
def ofNat (n : Nat) : JsVal := num (n : ℚ)

/-- An integer as a JavaScript number. -/
def ofInt (z : Int) : JsVal := num (z : ℚ)

/-- The value is a number that is a non-negative integer. -/
def IsNonNegInt (v : JsVal) : Prop := ∃ n : Nat, v = num (n : ℚ)

/-- The object has an own member named `key`. -/
def hasKey (v : JsVal) (key : String) : Bool :=
  match v with
  | obj fields => (fields.lookup key).isSome
  | _ => false

end JsVal

open JsVal

/-! ## MetadataSynthesizer: `generateModelMetadata` -/

/-- JavaScript `ToInt32` on an integer: wrap into the signed 32-bit range. -/
def toInt32 (x : Int) : Int := (x + 2147483648) % 4294967296 - 2147483648

/-- The expression `a << 5` on an integer-valued number. -/
def shl5 (a : Int) : Int := toInt32 (toInt32 a * 32)

/-- The expression `a & a` on an integer-valued number. -/
def andSelf (a : Int) : Int := toInt32 a

/-- The reducer `(a, b) => { a = ((a << 5) - a) + b.charCodeAt(0); return a & a; }`
with `code = b.charCodeAt(0)`. -/
def hashStep (a : Int) (code : Nat) : Int := andSelf ((shl5 a - a) + (code : Int))

/-- UTF-16 code units of one character: `split('')` cuts a string into its
code units, so a character outside the basic plane gives two elements. -/
def utf16Units (c : Char) : List Nat :=
  if c.toNat < 65536 then [c.toNat]
  else [55296 + (c.toNat - 65536) / 1024, 56320 + (c.toNat - 65536) % 1024]

/-- The sequence `modelId.split('').map(b => b.charCodeAt(0))`. -/
def codeUnits (s : String) : List Nat := s.data.flatMap utf16Units

/-- The value `modelId.split('').reduce(..., 0)`. -/
def modelHash (modelId : String) : Int := (codeUnits modelId).foldl hashStep 0

/-- An object literal `{ size, param, quant }`. -/
def metadataObj (size : Nat) (param quant : String) : JsVal :=
  obj [("size", ofNat size), ("param", str param), ("quant", str quant)]

/-- The literal `sizeMap`. -/
def sizeMap : List (String × JsVal) :=
  [("gpt-4", metadataObj 8500000000 "175B" "Q4_K_M"),
   ("gpt-4-turbo", metadataObj 7200000000 "175B" "Q4_K_M"),
   ("gpt-3.5-turbo", metadataObj 4200000000 "20B" "Q4_K_M"),
   ("gpt-4o", metadataObj 6800000000 "175B" "Q4_K_M"),
   ("gpt-4o-mini", metadataObj 2100000000 "8B" "Q4_K_M"),
   ("claude", metadataObj 5500000000 "70B" "Q4_K_M"),
   ("gemini", metadataObj 4800000000 "30B" "Q4_K_M")]

/-- Names of the members every object literal inherits from
`Object.prototype`; each is a function or an object, hence truthy. -/
def objectPrototypeKeys : List String :=
  ["constructor", "__defineGetter__", "__defineSetter__", "hasOwnProperty",
   "__lookupGetter__", "__lookupSetter__", "isPrototypeOf",
   "propertyIsEnumerable", "toString", "valueOf", "__proto__", "toLocaleString"]

/-- The expression `sizeMap[modelId]` with a computed key: the own member if
there is one, else the member inherited from `Object.prototype`, else
`undefined`. -/
def sizeMapAt (modelId : String) : JsVal :=
  match sizeMap.lookup modelId with
  | some v => v
  | none => if objectPrototypeKeys.contains modelId then host modelId else undefined

/-- The array `sizes`. -/
def sizes : List Nat := [2100000000, 4200000000, 6800000000, 8500000000]

/-- The array `params`. -/
def params : List String := ["8B", "20B", "70B", "175B"]

/-- The function `generateModelMetadata(modelId)` for a string `modelId`. -/
def generateModelMetadata (modelId : String) : JsVal :=
  let metadata := sizeMapAt modelId
  if !metadata.truthy then
    let hash := modelHash modelId
    let idx := hash.natAbs % sizes.length
    metadataObj (sizes.getD idx 0) (params.getD idx "") "Q4_K_M"
  else
    metadata

/-! ## Configuration -/

/-- The constant `DEFAULT_MODEL = process.env.DEFAULT_MODEL || 'gpt-3.5-turbo'`,
from the value of the environment variable if it is set. -/
def defaultModelOf (envValue : Option String) : String :=
  match envValue with
  | some s => if s ≠ "" then s else "gpt-3.5-turbo"
  | none => "gpt-3.5-turbo"

/-- The constant `CACHE_DURATION = 5 * 60 * 1000`, in milliseconds. -/
def CACHE_DURATION : Int := 5 * 60 * 1000

/-! ## RequestTranslator -/

/-- An object literal `{ role, content }`. -/
def messageObj (role : String) (content : JsVal) : JsVal :=
  obj [("role", str role), ("content", content)]

/-- The function `convertOllamaGenerateToOpenAI(ollamaRequest)`; `none` is the
`TypeError` of reading a member of a nullish request. -/
def convertOllamaGenerateToOpenAI (DEFAULT_MODEL : String) (ollamaRequest : JsVal) :
    Option JsVal := do
  let system ← ollamaRequest.prop "system"
  let messages := if system.truthy then [messageObj "system" system] else []
  let prompt ← ollamaRequest.prop "prompt"
  let messages := if prompt.truthy then messages ++ [messageObj "user" prompt] else messages
  let model ← ollamaRequest.prop "model"
  let stream ← ollamaRequest.prop "stream"
  let options ← ollamaRequest.prop "options"
  pure (obj [("model", model.or (str DEFAULT_MODEL)),
             ("messages", arr messages),
             ("stream", stream.or (bool false)),
             ("temperature", (options.optProp "temperature").or (num (7 / 10))),
             ("max_tokens", (options.optProp "num_predict").or (num 2048))])

/-- The function `convertOllamaToOpenAI(ollamaRequest)`; `none` is the
`TypeError` of reading a member of a nullish request. -/
def convertOllamaToOpenAI (DEFAULT_MODEL : String) (ollamaRequest : JsVal) :
    Option JsVal := do
  let requestMessages ← ollamaRequest.prop "messages"
  let prompt ← ollamaRequest.prop "prompt"
  let messages := requestMessages.or (arr [messageObj "user" (prompt.or (str ""))])
  let model ← ollamaRequest.prop "model"
  let stream ← ollamaRequest.prop "stream"
  let options ← ollamaRequest.prop "options"
  pure (obj [("model", model.or (str DEFAULT_MODEL)),
             ("messages", messages),
             ("stream", stream.or (bool false)),
             ("temperature", (options.optProp "temperature").or (num (7 / 10))),
             ("max_tokens", (options.optProp "num_predict").or (num 2048))])

/-! ## ResponseTranslator -/

/-- The rounding of an exact product to a double that the operator `*` of the
host performs. The embedding is parametric in it; the one law recorded, that a
non-negative number rounds to a non-negative number, holds of IEEE 754
rounding (which is monotone and leaves 0 as it is). -/
structure Rounding where
  apply : ℚ → ℚ
  nonneg : ∀ x : ℚ, 0 ≤ x → 0 ≤ apply x

/-- The rounding of a host on which every product met is a double already. -/
def Rounding.exact : Rounding := { apply := fun x => x, nonneg := fun _ h => h }

/-- The double written `0.3`: `5404319552844595 / 2 ^ 54`. -/
def pointThree : ℚ := 5404319552844595 / 18014398509481984

/-- The expression `Math.floor(Math.random() * scale) + offset` for the draw
`r` of `Math.random()`: the product is rounded to a double, then floored. -/
def randomDuration (fl : Rounding) (r : ℚ) (scale offset : Nat) : JsVal :=
  ofInt (⌊fl.apply (r * (scale : ℚ))⌋ + (offset : Int))

/-- The members `done_reason` ... `eval_duration` of a terminal chunk, in the
order of the object literal, without `context`; `rnd i` is the value of the
`i`-th call of `Math.random()` made while the literal is evaluated. -/
def timingFields (fl : Rounding) (rnd : Nat → ℚ) (promptEvalCount evalCount : JsVal) :
    List (String × JsVal) :=
  [("total_duration", randomDuration fl (rnd 0) 1000000000 500000000),
   ("load_duration", randomDuration fl (rnd 1) 10000000 1000000),
   ("prompt_eval_count", promptEvalCount),
   ("prompt_eval_duration", randomDuration fl (rnd 2) 100000000 50000000),
   ("eval_count", evalCount),
   ("eval_duration", randomDuration fl (rnd 3) 500000000 200000000)]

/-- The function `convertOpenAIToOllamaChat(openaiResponse, model, isStreaming)`;
`now` is `new Date().toISOString()`, and `none` is a `TypeError`. -/
def convertOpenAIToOllamaChat (now : String) (fl : Rounding) (rnd : Nat → ℚ)
    (openaiResponse model : JsVal) (isStreaming : Bool) : Option JsVal := do
  let choices ← openaiResponse.prop "choices"
  let choice ← choices.index0
  let message ← choice.prop "message"
  let role ← message.prop "role"
  let content ← message.prop "content"
  if isStreaming then
    pure (obj [("model", model), ("created_at", str now),
               ("message", obj [("role", role), ("content", content)]),
               ("done", bool false)])
  else
    let usage ← openaiResponse.prop "usage"
    pure (obj ([("model", model), ("created_at", str now),
                ("message", obj [("role", role), ("content", content)]),
                ("done", bool true), ("done_reason", str "stop")] ++
               timingFields fl rnd ((usage.optProp "prompt_tokens").or (num 0))
                 ((usage.optProp "completion_tokens").or (num 0))))

/-- The function `convertOpenAIToOllamaGenerate(openaiResponse, model, isStreaming)`;
`now` is `new Date().toISOString()`, and `none` is a `TypeError`. -/
def convertOpenAIToOllamaGenerate (now : String) (fl : Rounding) (rnd : Nat → ℚ)
    (openaiResponse model : JsVal) (isStreaming : Bool) : Option JsVal := do
  let choices ← openaiResponse.prop "choices"
  let choice ← choices.index0
  let message ← choice.prop "message"
  let content ← message.prop "content"
  if isStreaming then
    pure (obj [("model", model), ("created_at", str now),
               ("response", content), ("done", bool false)])
  else
    let usage ← openaiResponse.prop "usage"
    pure (obj ([("model", model), ("created_at", str now),
                ("response", content),
                ("done", bool true), ("done_reason", str "stop"), ("context", arr [])] ++
               timingFields fl rnd ((usage.optProp "prompt_tokens").or (num 0))
                 ((usage.optProp "completion_tokens").or (num 0))))

/-! ## StreamReframer: the `'data'` handlers of `/api/chat` and `/api/generate` -/

/-- Host functions the streaming handlers call: `parse` is `JSON.parse`
(`none` for a `SyntaxError`), `date k` is the value of the `k`-th
`new Date().toISOString()`, `random k` the value of the `k`-th
`Math.random()` of the stream, and `round` the rounding of products. -/
structure Env where
  parse : String → Option JsVal
  date : Nat → String
  random : Nat → ℚ
  round : Rounding

/-- The two routes: `/api/chat` and `/api/generate`. -/
inductive Variant where
  | chat : Variant
  | generate : Variant
  deriving DecidableEq

/-- State a `'data'` handler closes over: the variables `fullContent` (kept as
the sequence of values appended by `+=`) and `totalTokens`, and the response
`res`, of which `writes` lists the chunks sent to the client, that is the
objects passed to `res.write(JSON.stringify(...) + '\n')` while the response
was not ended, in order, and `ended` says whether `res.end()` has been called;
`dateCalls` and `randomCalls` count the host calls made so far. -/
structure StreamState where
  fullContent : List JsVal
  totalTokens : Nat
  writes : List JsVal
  ended : Bool
  dateCalls : Nat
  randomCalls : Nat

/-- State when the handler is registered: `fullContent = ''`, `totalTokens = 0`. -/
def StreamState.init : StreamState :=
  { fullContent := [], totalTokens := 0, writes := [], ended := false,
    dateCalls := 0, randomCalls := 0 }

/-- Characters `trim()` removes: JavaScript white space and line terminators. -/
def isJsWhitespace (c : Char) : Bool :=
  [9, 10, 11, 12, 13, 32, 160, 5760, 8232, 8233, 8239, 8287, 12288, 65279].contains c.toNat
    || (8192 ≤ c.toNat && c.toNat ≤ 8202)

/-- The test `line.trim()` of the filter: the trimmed line is not empty. -/
def trimTruthy (line : String) : Bool := line.data.any (fun c => !isJsWhitespace c)

/-- The call `split('\n')` on the characters of a string. -/
def splitNewline : List Char → List (List Char)
  | [] => [[]]
  | c :: cs =>
    if c = '\n' then [] :: splitNewline cs
    else
      match splitNewline cs with
      | [] => [[c]]
      | l :: ls => (c :: l) :: ls

/-- The value `chunk.toString().split('\n').filter(line => line.trim())`, for the
decoded text of the raw chunk. -/
def chunkLines (chunk : String) : List String :=
  ((splitNewline chunk.data).map String.mk).filter trimTruthy

/-- The test `line.startsWith('data: ')`. -/
def startsWithData (line : String) : Bool := "data: ".data.isPrefixOf line.data

/-- The value `line.slice(6)`. -/
def slice6 (line : String) : String := String.mk (line.data.drop 6)

/-- The object `ollamaChunk` of either handler. -/
def ollamaChunk (variant : Variant) (model : JsVal) (now : String) (content : JsVal) : JsVal :=
  match variant with
  | .chat =>
    obj [("model", model), ("created_at", str now),
         ("message", obj [("role", str "assistant"), ("content", content)]),
         ("done", bool false)]
  | .generate =>
    obj [("model", model), ("created_at", str now),
         ("response", content), ("done", bool false)]

/-- The object `finalResponse` of either handler; `prompt_eval_count` is
`Math.floor(totalTokens * 0.3)`, the floor of the rounded product. -/
def finalResponse (variant : Variant) (model : JsVal) (now : String) (fl : Rounding)
    (rnd : Nat → ℚ) (totalTokens : Nat) : JsVal :=
  match variant with
  | .chat =>
    obj ([("model", model), ("created_at", str now),
          ("message", obj [("role", str "assistant"), ("content", str "")]),
          ("done", bool true), ("done_reason", str "stop")] ++
         timingFields fl rnd (ofInt ⌊fl.apply ((totalTokens : ℚ) * pointThree)⌋)
           (ofNat totalTokens))
  | .generate =>
    obj ([("model", model), ("created_at", str now),
          ("response", str ""),
          ("done", bool true), ("done_reason", str "stop"), ("context", arr [])] ++
         timingFields fl rnd (ofInt ⌊fl.apply ((totalTokens : ℚ) * pointThree)⌋)
           (ofNat totalTokens))

/-- The call `res.write(...)` on the chunks sent so far: a response that has
been ended refuses the write (it returns `false` and sends nothing), otherwise
the chunk is sent. -/
def resWrite (ended : Bool) (sent : List JsVal) (chunk : JsVal) : List JsVal :=
  if ended then sent else sent ++ [chunk]

mutual
/-- Can the value be converted to a string, as `fullContent += delta.content`
does? Of the values `JSON.parse` yields only an object with an own member
`toString` (which is no function), or an array that holds a value that cannot
be converted, raises the `TypeError` of the conversion. -/
def stringConvertible : JsVal → Bool
  | obj fields => (fields.lookup "toString").isNone
  | arr items => allStringConvertible items
  | _ => true
/-- Can every element of the array be converted to a string, as `join` does? -/
def allStringConvertible : List JsVal → Bool
  | [] => true
  | item :: rest => stringConvertible item && allStringConvertible rest
end

/-- One iteration of `for (const line of lines)`: the new state, and whether
the iteration executed `return`. Inside the `try`, a `TypeError` (of
`parsed.choices` on `null`, or of `fullContent += delta.content`) is caught
before anything is counted or written. -/
def onLine (env : Env) (variant : Variant) (model : JsVal) (st : StreamState)
    (line : String) : StreamState × Bool :=
  if startsWithData line then
    let data := slice6 line
    if data = "[DONE]" then
      ({ st with
          writes := resWrite st.ended st.writes
            (finalResponse variant model (env.date st.dateCalls) env.round
              (fun i => env.random (st.randomCalls + i)) st.totalTokens)
          ended := true
          dateCalls := st.dateCalls + 1
          randomCalls := st.randomCalls + 4 }, true)
    else
      match env.parse data with
      | none => (st, false)
      | some parsed =>
        match parsed.prop "choices" with
        | none => (st, false)
        | some choices =>
          let delta := choices.optIndex0.optProp "delta"
          let content := delta.optProp "content"
          if content.truthy then
            if stringConvertible content then
              ({ st with
                  fullContent := st.fullContent ++ [content]
                  totalTokens := st.totalTokens + 1
                  writes := resWrite st.ended st.writes
                    (ollamaChunk variant model (env.date st.dateCalls) content)
                  dateCalls := st.dateCalls + 1 }, false)
            else (st, false)
          else (st, false)
  else (st, false)

/-- The loop `for (const line of lines)`, left at the first `return`. -/
def processLines (env : Env) (variant : Variant) (model : JsVal) :
    StreamState → List String → StreamState
  | st, [] => st
  | st, line :: rest =>
    let step := onLine env variant model st line
    if step.2 then step.1 else processLines env variant model step.1 rest

/-- The handler `response.data.on('data', (chunk) => ...)` run on one raw chunk. -/
def onData (env : Env) (variant : Variant) (model : JsVal) (st : StreamState)
    (chunk : String) : StreamState :=
  processLines env variant model st (chunkLines chunk)

/-- The handler run on the raw chunks of a stream, in order of arrival. -/
def feed (env : Env) (variant : Variant) (model : JsVal) (st : StreamState)
    (chunks : List String) : StreamState :=
  chunks.foldl (onData env variant model) st

/-! ## ModelCatalog: `fetchOpenAIModels` -/

/-- Host functions `fetchOpenAIModels` calls: `nowISO` is
`new Date().toISOString()`, `dateISO created` is
`new Date(created * 1000).toISOString()` (`none` for the `RangeError` of an
invalid date) and `digest i` is the value of the `digest` template, built from
two `Math.random()` draws, for the `i`-th model. -/
structure CatalogEnv where
  nowISO : String
  dateISO : JsVal → Option String
  digest : Nat → String

/-- Outcome of `await axios.get(...)`: the promise rejects, or resolves to a
response object. -/
inductive Upstream where
  | rejected : Upstream
  | resolved (response : JsVal) : Upstream

/-- The variables `cachedModels` (`none` for `null`) and `lastFetchTime`. -/
structure Catalog where
  cachedModels : Option JsVal
  lastFetchTime : Int

/-- Value of the variables at start-up. -/
def Catalog.init : Catalog := { cachedModels := none, lastFetchTime := 0 }

/-- The object literal of a catalog entry. -/
def modelEntry (id : JsVal) (modified_at : String) (metadata : JsVal) (digest : String) :
    JsVal :=
  obj [("name", id), ("model", id), ("modified_at", str modified_at),
       ("size", metadata.own "size"), ("digest", str digest),
       ("details", obj [("parent_model", str ""), ("format", str "gguf"),
          ("family", str "llama"), ("families", arr [str "llama"]),
          ("parameter_size", metadata.own "param"),
          ("quantization_level", metadata.own "quant")])]

/-- The string form of an identifier that is not a string, when that form can
name a member of `sizeMap` or of `Object.prototype`: an array with a single
element has the string form of its element; the string form of every other
value (a number, a boolean, an object, an array of another length) names no
such member. -/
def propertyKey : JsVal → Option String
  | str s => some s
  | arr [x] => propertyKey x
  | _ => none

/-- The call `generateModelMetadata(model.id)` inside the callback: for a string
it is `generateModelMetadata`; for any other value the function returns the
truthy member of `sizeMap` that the string form of the value names, if there is
one, and otherwise raises the `TypeError` of `modelId.split` (`none`). -/
def metadataOfId (id : JsVal) : Option JsVal :=
  match id with
  | str s => some (generateModelMetadata s)
  | other =>
    match propertyKey other with
    | some key => if (sizeMapAt key).truthy then some (sizeMapAt key) else none
    | none => none

/-- The callback of `response.data.data.map(...)` on the element at index `i`;
`none` is an exception. -/
def mapModel (env : CatalogEnv) (i : Nat) (model : JsVal) : Option JsVal := do
  let id ← model.prop "id"
  let metadata ← metadataOfId id
  let created ← model.prop "created"
  let modified_at ← env.dateISO created
  pure (modelEntry id modified_at metadata (env.digest i))

/-- The call `array.map(...)` from index `i` on, failing at the first exception. -/
def mapModels (env : CatalogEnv) : Nat → List JsVal → Option (List JsVal)
  | _, [] => some []
  | i, model :: rest => do
    let entry ← mapModel env i model
    let entries ← mapModels env (i + 1) rest
    pure (entry :: entries)

/-- The `try` block of `fetchOpenAIModels` up to the construction of `models`;
`none` when it throws. -/
def tryFetch (env : CatalogEnv) (upstream : Upstream) : Option (List JsVal) :=
  match upstream with
  | .rejected => none
  | .resolved response => do
    let body ← response.prop "data"
    let data ← body.prop "data"
    match data with
    | arr items => mapModels env 0 items
    | _ => none

/-- Result of one call of `fetchOpenAIModels`: the variables afterwards, the
value returned, and the number of calls of `axios.get`. -/
structure FetchResult where
  catalog : Catalog
  returned : JsVal
  fetches : Nat

/-- The synthesized list of the `catch` branch when there is no cache. -/
def fallbackModels (env : CatalogEnv) (DEFAULT_MODEL : String) : JsVal :=
  let metadata := generateModelMetadata DEFAULT_MODEL
  obj [("models", arr [modelEntry (str DEFAULT_MODEL) env.nowISO metadata
    "fallback123456789abcdef"])]

/-- The function `fetchOpenAIModels()`, called at time `now = Date.now()` with
the variables `catalog`, when the upstream request would have the outcome
`upstream`. -/
def fetchOpenAIModels (env : CatalogEnv) (DEFAULT_MODEL : String) (catalog : Catalog)
    (now : Int) (upstream : Upstream) : FetchResult :=
  if catalog.cachedModels.isSome && decide (now - catalog.lastFetchTime < CACHE_DURATION) then
    { catalog := catalog, returned := catalog.cachedModels.getD null, fetches := 0 }
  else
    match tryFetch env upstream with
    | some models =>
      { catalog := { cachedModels := some (obj [("models", arr models)]), lastFetchTime := now },
        returned := obj [("models", arr models)], fetches := 1 }
    | none =>
      match catalog.cachedModels with
      | some cached => { catalog := catalog, returned := cached, fetches := 1 }
      | none => { catalog := catalog, returned := fallbackModels env DEFAULT_MODEL, fetches := 1 }

/-! ## Definitions used to state the specification -/

/-- One step of the rolling hash in the words of the specification:
`hash' = (hash × 31 + char_code)` truncated to the signed 32-bit range. -/
def specHashStep (h : Int) (code : Nat) : Int := toInt32 (h * 31 + (code : Int))

/-- The rolling hash of the specification, folded over the code units from 0. -/
def specHash (modelId : String) : Int := (codeUnits modelId).foldl specHashStep 0

/-- The seven keys of the fixed table. -/
def tableKeys : List String := sizeMap.map Prod.fst

/-- A message of the given role built from a request field, present exactly
when the field is truthy. -/
def optionalMessage (role : String) (field : JsVal) : List JsVal :=
  if field.truthy then [messageObj role field] else []

/-- The option `options.key` a local request supplies (`undefined` when the
request has no options or the options lack the key). -/
def requestOption (request : JsVal) (key : String) : JsVal :=
  (request.own "options").optProp key

/-- The upstream request forwards the sampling options of the local request:
a supplied non-zero number as it is, and the default when none is supplied. -/
def ForwardsOptions (request upstream : JsVal) : Prop :=
  (∀ t : ℚ, t ≠ 0 → requestOption request "temperature" = num t →
      upstream.own "temperature" = num t) ∧
  (requestOption request "temperature" = undefined →
      upstream.own "temperature" = num (7 / 10)) ∧
  (∀ n : ℚ, n ≠ 0 → requestOption request "num_predict" = num n →
      upstream.own "max_tokens" = num n) ∧
  (requestOption request "num_predict" = undefined →
      upstream.own "max_tokens" = num 2048)

/-- The members only a terminal chunk carries. -/
def timingKeys : List String :=
  ["done_reason", "total_duration", "load_duration", "prompt_eval_count",
   "prompt_eval_duration", "eval_count", "eval_duration"]

/-- The members of a terminal chunk that are durations or counts. -/
def numericKeys : List String :=
  ["total_duration", "load_duration", "prompt_eval_count", "prompt_eval_duration",
   "eval_count", "eval_duration"]

/-- The invariant of a local-protocol chunk: `done` is a boolean; a chunk with
`done = false` carries none of the timing members; a chunk with `done = true`
carries all of them, its `done_reason` is `"stop"` and its durations and
counts are non-negative integers. -/
def ChunkInvariant (c : JsVal) : Prop :=
  (c.own "done" = bool false ∨ c.own "done" = bool true) ∧
  (c.own "done" = bool false → ∀ k ∈ timingKeys, c.hasKey k = false) ∧
  (c.own "done" = bool true →
    (∀ k ∈ timingKeys, c.hasKey k = true) ∧
    c.own "done_reason" = str "stop" ∧
    ∀ k ∈ numericKeys, (c.own k).IsNonNegInt)

/-- A usage counter of an upstream response: absent, `null`, or a number of
tokens. -/
def TokenCount (v : JsVal) : Prop := v = undefined ∨ v = null ∨ v.IsNonNegInt

/-- Every draw of `Math.random()` lies in `[0, 1)`. -/
def UnitDraws (rnd : Nat → ℚ) : Prop := ∀ i, 0 ≤ rnd i ∧ rnd i < 1

/-- The cache is consulted without a fetch: it exists and its age is below the
time-to-live of 300000 ms. -/
def FreshCache (catalog : Catalog) (now : Int) : Prop :=
  catalog.cachedModels ≠ none ∧ now - catalog.lastFetchTime < 300000

/-- The text of a raw chunk that delivers the given lines in order, each ended
by a newline and followed by `gap` empty lines (`gap = 1` is the framing of
server-sent events). -/
def renderLines (gap : Nat) : List String → String
  | [] => ""
  | line :: rest => line ++ "\n" ++ String.mk (List.replicate gap '\n') ++ renderLines gap rest

/-- The text made of the given lines, separated by newlines. -/
def joinLines : List String → String
  | [] => ""
  | [line] => line
  | line :: rest => line ++ "\n" ++ joinLines rest

/-- A string without a newline, that is, a single line. -/
def SingleLine (s : String) : Prop := '\n' ∉ s.data

instance (s : String) : Decidable (SingleLine s) := by
  unfold SingleLine
  infer_instance

/-- The frame `data: <payload>`. -/
def frameLine (payload : String) : String := "data: " ++ payload

/-- The frame `data: [DONE]`. -/
def doneLine : String := frameLine "[DONE]"

/-- An upstream delta frame: the text of its payload and the content its delta
carries, if any. -/
structure DeltaFrame where
  payload : String
  content : Option String

/-- The JSON value is a delta event `{"choices": [{"delta": {...}}, ...]}` whose
delta has the given content text, or has no content (or `null`) for `none`. -/
def DeltaShape (v : JsVal) (content : Option String) : Prop :=
  ∃ fields choice rest delta,
    v = obj fields ∧
    fields.lookup "choices" = some (arr (obj choice :: rest)) ∧
    choice.lookup "delta" = some (obj delta) ∧
    match content with
    | some s => delta.lookup "content" = some (str s)
    | none => delta.lookup "content" = none ∨ delta.lookup "content" = some null

/-- A well-formed delta frame: its payload is a single line other than the
sentinel and parses to a delta event with the frame's content. -/
def WellFormedDelta (parse : String → Option JsVal) (f : DeltaFrame) : Prop :=
  SingleLine f.payload ∧ f.payload ≠ "[DONE]" ∧
  ∃ v, parse f.payload = some v ∧ DeltaShape v f.content

/-- The raw chunks of a stream of delta frames followed by the sentinel frame,
each frame wholly inside one raw chunk: one raw chunk for each group of
`groups`, then one that delivers the frames of `last` and the sentinel. -/
def rawChunks (gap : Nat) (groups : List (List DeltaFrame)) (last : List DeltaFrame) :
    List String :=
  groups.map (fun g => renderLines gap (g.map (fun f => frameLine f.payload))) ++
    [renderLines gap (last.map (fun f => frameLine f.payload) ++ [doneLine])]

/-- The non-empty contents of a sequence of delta frames, in frame order. -/
def contentsOf (frames : List DeltaFrame) : List String :=
  frames.filterMap (fun f => f.content.filter (fun s => s ≠ ""))

/-- The content a chunk carries: `message.content` on the chat route and
`response` on the generate route. -/
def chunkContent (variant : Variant) (c : JsVal) : JsVal :=
  match variant with
  | .chat => (c.own "message").own "content"
  | .generate => c.own "response"

/-- What a client reads off a chunk: its `done` flag, its content and its
`eval_count`. -/
def chunkView (variant : Variant) (c : JsVal) : JsVal × JsVal × JsVal :=
  (c.own "done", chunkContent variant c, c.own "eval_count")

/-- Is the chunk terminal (`done = true`)? -/
def isTerminal (c : JsVal) : Bool :=
  match c.own "done" with
  | JsVal.bool true => true
  | _ => false

/-- The number of terminal chunks among the chunks sent. -/
def terminalCount (sent : List JsVal) : Nat := (sent.filter isTerminal).length

/-- The chunks sent so far all satisfy the chunk invariant. -/
def WritesInvariant (st : StreamState) : Prop := ∀ c ∈ st.writes, ChunkInvariant c

/-- The chunks sent so far hold no terminal chunk while the response is open,
and none before the last chunk in any case. -/
def TerminalLast (st : StreamState) : Prop :=
  (st.ended = false → ∀ c ∈ st.writes, isTerminal c = false) ∧
  (∀ c ∈ st.writes.dropLast, isTerminal c = false)

/-- A line the handlers are to discard: it does not start with `data: `, or
its payload is neither the sentinel nor parseable. -/
def BadLine (parse : String → Option JsVal) (line : String) : Prop :=
  startsWithData line = false ∨
  (slice6 line ≠ "[DONE]" ∧ parse (slice6 line) = none)

/-- The position between the pieces `a` and `b` of a text is a line boundary:
it is an end of the text, or it comes directly after or directly before a
newline. -/
def LineBoundary (a b : String) : Prop :=
  a = "" ∨ b = "" ∨ a.data.getLast? = some '\n' ∨ b.data.head? = some '\n'

instance (a b : String) : Decidable (LineBoundary a b) := by
  unfold LineBoundary
  infer_instance

/-! ## Concrete requests used as examples -/

/-- The generate request `{prompt: "hi", system: "be terse"}`. -/
def terseRequest : JsVal := obj [("prompt", str "hi"), ("system", str "be terse")]

/-- The generate request `{system: "", prompt: "hi"}`. -/
def emptySystemRequest : JsVal := obj [("system", str ""), ("prompt", str "hi")]

/-- A request with `options: {temperature: 0.2, num_predict: 100}`. -/
def tunedRequest : JsVal :=
  obj [("options", obj [("temperature", num (1 / 5)), ("num_predict", num 100)])]

/-- A request with `options: {temperature: 0, num_predict: 0}`. -/
def zeroOptionsRequest : JsVal :=
  obj [("options", obj [("temperature", num 0), ("num_predict", num 0)])]

/-- A chat request with a model and two messages. -/
def chatRequest : JsVal :=
  obj [("model", str "gpt-4"),
       ("messages", arr [messageObj "system" (str "be terse"), messageObj "user" (str "hi")])]

/-- The chat request `{model: "", messages: []}`. -/
def emptyModelRequest : JsVal := obj [("model", str ""), ("messages", arr [])]

/-! ## Concrete hosts and responses used as examples -/

/-- A catalog host with a fixed clock that accepts every creation time. -/
def demoCatalogEnv : CatalogEnv :=
  { nowISO := "2024-01-01T00:00:00.000Z",
    dateISO := fun _ => some "2023-06-01T00:00:00.000Z",
    digest := fun _ => "0123456789abc0123456789abc" }

/-- A cache holding one entry, for the model `gpt-4`. -/
def demoCache : JsVal :=
  obj [("models", arr [modelEntry (str "gpt-4") "2023-06-01T00:00:00.000Z"
    (generateModelMetadata "gpt-4") "0123456789abc0123456789abc"])]

/-- An upstream body that lacks the `data` array. -/
def malformedResponse : JsVal := obj [("data", obj [("error", str "bad gateway")])]

/-- A complete upstream response with usage counters. -/
def demoResponse : JsVal :=
  obj [("choices", arr [obj [("message",
          obj [("role", str "assistant"), ("content", str "Hello")])]]),
       ("usage", obj [("prompt_tokens", num 7), ("completion_tokens", num 3)])]

/-- A complete upstream response whose usage counters are no token counts:
`{prompt_tokens: -5, completion_tokens: 2.5}`. -/
def badUsageResponse : JsVal :=
  obj [("choices", arr [obj [("message",
          obj [("role", str "assistant"), ("content", str "Hello")])]]),
       ("usage", obj [("prompt_tokens", num (-5)), ("completion_tokens", num (5 / 2))])]

/-- The JSON value `{"choices": [{"delta": {"content": c}}]}`. -/
def deltaJson (c : String) : JsVal :=
  obj [("choices", arr [obj [("delta", obj [("content", str c)])]])]

/-- Payload of a delta frame with content `Hel`. -/
def helPayload : String :=
  "\x7b\"choices\":[\x7b\"delta\":\x7b\"content\":\"Hel\"\x7d\x7d]\x7d"

/-- Payload of a delta frame with content `lo`. -/
def loPayload : String :=
  "\x7b\"choices\":[\x7b\"delta\":\x7b\"content\":\"lo\"\x7d\x7d]\x7d"

/-- A parser that knows the two example payloads and rejects everything else. -/
def demoParse (s : String) : Option JsVal :=
  if s = helPayload then some (deltaJson "Hel")
  else if s = loPayload then some (deltaJson "lo")
  else none

/-- A stream host with the example parser, a fixed clock and constant draws. -/
def demoEnv : Env :=
  { parse := demoParse, date := fun _ => "2024-01-01T00:00:00.000Z",
    random := fun _ => 1 / 2, round := Rounding.exact }

/-- The example delta frame with content `Hel`. -/
def helFrame : DeltaFrame := { payload := helPayload, content := some "Hel" }

/-- The example delta frame with content `lo`. -/
def loFrame : DeltaFrame := { payload := loPayload, content := some "lo" }

/-- The first ten characters of the raw chunk that delivers `helFrame`: the
chunk is cut inside the payload. -/
def cutHead : String := "data: \x7b\"ch"

/-- The rest of the raw chunk that delivers `helFrame`. -/
def cutTail : String :=
  "oices\":[\x7b\"delta\":\x7b\"content\":\"Hel\"\x7d\x7d]\x7d\n\n"

/-! # Theorems -/

/-! ## MetadataSynthesizer -/

theorem hashStep_eq_specHashStep (a : Int) (code : Nat) :
    hashStep a code = specHashStep a code := by
  unfold hashStep specHashStep andSelf shl5 toInt32
  omega

theorem modelHash_eq_specHash (modelId : String) : modelHash modelId = specHash modelId := by
  unfold modelHash specHash
  have hfun : hashStep = specHashStep := by
    funext a code
    exact hashStep_eq_specHashStep a code
  rw [hfun]

/-- An identifier that is neither a key of the table nor the name of a member
of `Object.prototype` gets the bucket the specification describes. -/
theorem generateModelMetadata_unknown (modelId : String)
    (hkey : modelId ∉ tableKeys) (hproto : objectPrototypeKeys.contains modelId = false) :
    (specHash modelId).natAbs % 4 < 4 ∧
    generateModelMetadata modelId =
      obj [("size", ofNat (sizes.getD ((specHash modelId).natAbs % 4) 0)),
           ("param", str (params.getD ((specHash modelId).natAbs % 4) "")),
           ("quant", str "Q4_K_M")] := by
  refine ⟨Nat.mod_lt _ (by decide), ?_⟩
  have hlookup : sizeMap.lookup modelId = none := by
    simp only [tableKeys, sizeMap, List.map_cons, List.map_nil, List.mem_cons,
      List.mem_singleton, List.not_mem_nil, or_false, not_or] at hkey
    obtain ⟨h1, h2, h3, h4, h5, h6, h7⟩ := hkey
    simp only [sizeMap, List.lookup_eq_none_iff, List.mem_cons, List.mem_singleton,
      List.not_mem_nil, or_false]
    simp
    exact ⟨h1, h2, h3, h4, h5, h6, h7⟩
  unfold generateModelMetadata sizeMapAt
  simp only [hlookup, hproto]
  simp [JsVal.truthy, modelHash_eq_specHash, metadataObj, sizes]

/-- The identifier `llama3` is unknown to the table and lands in the third
bucket. -/
theorem generateModelMetadata_unknown_witness :
    "llama3" ∉ tableKeys ∧ objectPrototypeKeys.contains "llama3" = false ∧
    generateModelMetadata "llama3" = metadataObj 6800000000 "70B" "Q4_K_M" :=
  ⟨by decide, by decide,
    (generateModelMetadata_unknown "llama3" (by decide) (by decide)).2⟩

/-- C4 (code defect). The identifier `constructor` is none of the seven keys of
the table, yet `generateModelMetadata` returns for it the member the table
object inherits from `Object.prototype`, which is none of the four buckets. -/
theorem generateModelMetadata_constructor :
    "constructor" ∉ tableKeys ∧
    generateModelMetadata "constructor" = host "constructor" ∧
    ∀ i : Nat, generateModelMetadata "constructor" ≠
      metadataObj (sizes.getD i 0) (params.getD i "") "Q4_K_M" := by
  refine ⟨by decide, rfl, ?_⟩
  intro i h
  have h2 : generateModelMetadata "constructor" = host "constructor" := rfl
  rw [h2] at h
  simp [metadataObj] at h

/-! ## RequestTranslator -/

theorem prop_of_not_nullish (v : JsVal) (key : String) (h : v.nullish = false) :
    v.prop key = some (v.own key) := by
  simp [JsVal.prop, h]

theorem convertOllamaGenerateToOpenAI_eq (D : String) (req : JsVal) (h : req.nullish = false) :
    convertOllamaGenerateToOpenAI D req =
      some (obj [("model", (req.own "model").or (str D)),
        ("messages", arr (optionalMessage "system" (req.own "system") ++
          optionalMessage "user" (req.own "prompt"))),
        ("stream", (req.own "stream").or (bool false)),
        ("temperature", (requestOption req "temperature").or (num (7 / 10))),
        ("max_tokens", (requestOption req "num_predict").or (num 2048))]) := by
  simp only [convertOllamaGenerateToOpenAI, prop_of_not_nullish _ _ h, Option.bind_eq_bind,
    Option.some_bind, Option.pure_def, optionalMessage, requestOption]
  cases hs : (req.own "system").truthy <;> cases hp : (req.own "prompt").truthy <;> simp

theorem convertOllamaToOpenAI_eq (D : String) (req : JsVal) (h : req.nullish = false) :
    convertOllamaToOpenAI D req =
      some (obj [("model", (req.own "model").or (str D)),
        ("messages", (req.own "messages").or
          (arr [messageObj "user" ((req.own "prompt").or (str ""))])),
        ("stream", (req.own "stream").or (bool false)),
        ("temperature", (requestOption req "temperature").or (num (7 / 10))),
        ("max_tokens", (requestOption req "num_predict").or (num 2048))]) := by
  simp only [convertOllamaToOpenAI, prop_of_not_nullish _ _ h, Option.bind_eq_bind,
    Option.some_bind, Option.pure_def, requestOption]

theorem forwardsOptions_of_fields (req model messages stream : JsVal) :
    ForwardsOptions req
      (obj [("model", model), ("messages", messages), ("stream", stream),
        ("temperature", (requestOption req "temperature").or (num (7 / 10))),
        ("max_tokens", (requestOption req "num_predict").or (num 2048))]) := by
  refine ⟨?_, ?_, ?_, ?_⟩
  · intro t ht h
    simp [JsVal.own, List.lookup, h, JsVal.or, JsVal.truthy, ht]
  · intro h
    simp [JsVal.own, List.lookup, h, JsVal.or, JsVal.truthy]
  · intro n hn h
    simp [JsVal.own, List.lookup, h, JsVal.or, JsVal.truthy, hn]
  · intro h
    simp [JsVal.own, List.lookup, h, JsVal.or, JsVal.truthy]

theorem own_obj_cons (k key : String) (v : JsVal) (fs : List (String × JsVal)) :
    (obj ((k, v) :: fs)).own key = if key = k then v else (obj fs).own key := by
  by_cases h : key = k
  · subst h
    simp [JsVal.own, List.lookup]
  · have hb : (key == k) = false := by simpa using h
    simp [JsVal.own, List.lookup, hb, h]

theorem own_obj_nil (key : String) : (obj []).own key = undefined := rfl

/-- C5 (amended). For every generate request the upstream messages are exactly
a system message with content `request.system`, included exactly when that
field is truthy (present and not the empty text), followed by a user message
with content `request.prompt`, included exactly when that field is truthy, in
that order and with nothing else. -/
theorem generate_messages (D : String) (req : JsVal) (hreq : req.nullish = false) :
    ∃ up, convertOllamaGenerateToOpenAI D req = some up ∧
      up.own "messages" =
        arr (optionalMessage "system" (req.own "system") ++
          optionalMessage "user" (req.own "prompt")) := by
  refine ⟨_, convertOllamaGenerateToOpenAI_eq D req hreq, ?_⟩
  simp [own_obj_cons]

/-- Witness of C5: the request `{prompt: "hi", system: "be terse"}` gives the
messages `[{system, "be terse"}, {user, "hi"}]`. -/
theorem generate_messages_witness :
    terseRequest.nullish = false ∧
    ∃ up, convertOllamaGenerateToOpenAI "gpt-3.5-turbo" terseRequest = some up ∧
      up.own "messages" =
        arr [messageObj "system" (str "be terse"), messageObj "user" (str "hi")] :=
  ⟨rfl, generate_messages "gpt-3.5-turbo" terseRequest rfl⟩

/-- Counterexample to C5 as stated: the request `{system: "", prompt: "hi"}`
has a system field, yet the upstream messages hold the user message only. -/
theorem generate_messages_counterexample :
    emptySystemRequest.hasKey "system" = true ∧
    (convertOllamaGenerateToOpenAI "gpt-3.5-turbo" emptySystemRequest).map
        (fun up => up.own "messages") =
      some (arr [messageObj "user" (str "hi")]) :=
  ⟨rfl, rfl⟩

/-- Where the translators do forward the options: for every local request, both
send as temperature the option `options.temperature` when it is supplied and is
a non-zero number, and 0.7 when it is not supplied, and as `max_tokens` the
option `options.num_predict` when it is supplied and is a non-zero number, and
2048 when it is not supplied. -/
theorem nonzero_options_forwarded (D : String) (req : JsVal) (hreq : req.nullish = false) :
    (∃ up, convertOllamaToOpenAI D req = some up ∧ ForwardsOptions req up) ∧
    (∃ up, convertOllamaGenerateToOpenAI D req = some up ∧ ForwardsOptions req up) :=
  ⟨⟨_, convertOllamaToOpenAI_eq D req hreq, forwardsOptions_of_fields req _ _ _⟩,
   ⟨_, convertOllamaGenerateToOpenAI_eq D req hreq, forwardsOptions_of_fields req _ _ _⟩⟩

/-- A request with `options: {temperature: 0.2, num_predict: 100}` has both
options forwarded. -/
theorem nonzero_options_forwarded_witness :
    tunedRequest.nullish = false ∧
    ((∃ up, convertOllamaToOpenAI "gpt-3.5-turbo" tunedRequest = some up ∧
        ForwardsOptions tunedRequest up) ∧
     (∃ up, convertOllamaGenerateToOpenAI "gpt-3.5-turbo" tunedRequest = some up ∧
        ForwardsOptions tunedRequest up)) :=
  ⟨rfl, nonzero_options_forwarded "gpt-3.5-turbo" tunedRequest rfl⟩

/-- C6 (code defect). The request supplies `temperature: 0` and `num_predict: 0`,
yet both translators send temperature 0.7 and `max_tokens` 2048, not 0: the
defaults are applied with `||`, which takes a supplied 0 for a missing option. -/
theorem zero_options_replaced :
    requestOption zeroOptionsRequest "temperature" = num 0 ∧
    requestOption zeroOptionsRequest "num_predict" = num 0 ∧
    (convertOllamaToOpenAI "gpt-3.5-turbo" zeroOptionsRequest).map
      (fun up => (up.own "temperature", up.own "max_tokens")) = some (num (7 / 10), num 2048) ∧
    (convertOllamaGenerateToOpenAI "gpt-3.5-turbo" zeroOptionsRequest).map
      (fun up => (up.own "temperature", up.own "max_tokens")) = some (num (7 / 10), num 2048) ∧
    num (7 / 10) ≠ num 0 ∧ num 2048 ≠ num 0 := by
  have hnull : zeroOptionsRequest.nullish = false := rfl
  refine ⟨rfl, rfl, ?_, ?_, ?_, ?_⟩
  · rw [convertOllamaToOpenAI_eq _ _ hnull]
    simp [own_obj_cons, zeroOptionsRequest, requestOption, JsVal.optProp, JsVal.nullish,
      JsVal.or, JsVal.truthy]
  · rw [convertOllamaGenerateToOpenAI_eq _ _ hnull]
    simp [own_obj_cons, zeroOptionsRequest, requestOption, JsVal.optProp, JsVal.nullish,
      JsVal.or, JsVal.truthy]
  · simp
  · simp

/-- C10 (amended). For every chat request, the upstream messages are the
request's own message sequence, unchanged and in the same order, when the
messages field is present; when it is absent they are exactly one message with
role user whose content is the request's prompt field, or the empty text if
prompt is absent too; and the upstream model is the request's model when that
is a non-empty text, and the configured default model identifier when the model
is absent or the empty text. -/
theorem chat_messages_and_model (D : String) (req : JsVal) (hreq : req.nullish = false) :
    ∃ up, convertOllamaToOpenAI D req = some up ∧
      (∀ ms, req.own "messages" = arr ms → up.own "messages" = arr ms) ∧
      (req.own "messages" = undefined → ∀ p, req.own "prompt" = str p →
        up.own "messages" = arr [messageObj "user" (str p)]) ∧
      (req.own "messages" = undefined → req.own "prompt" = undefined →
        up.own "messages" = arr [messageObj "user" (str "")]) ∧
      (∀ m, m ≠ "" → req.own "model" = str m → up.own "model" = str m) ∧
      (req.own "model" = undefined ∨ req.own "model" = str "" → up.own "model" = str D) := by
  refine ⟨_, convertOllamaToOpenAI_eq D req hreq, ?_, ?_, ?_, ?_, ?_⟩
  · intro ms h
    simp [own_obj_cons, h, JsVal.or, JsVal.truthy]
  · intro h p hp
    by_cases hpe : p = ""
    · simp [own_obj_cons, h, hp, hpe, JsVal.or, JsVal.truthy]
    · simp [own_obj_cons, h, hp, hpe, JsVal.or, JsVal.truthy]
  · intro h hp
    simp [own_obj_cons, h, hp, JsVal.or, JsVal.truthy]
  · intro m hm h
    simp [own_obj_cons, h, hm, JsVal.or, JsVal.truthy]
  · rintro (h | h) <;> simp [own_obj_cons, h, JsVal.or, JsVal.truthy]

/-- Witness of C10: a request with a model and two messages. -/
theorem chat_messages_and_model_witness :
    chatRequest.nullish = false ∧
    ∃ up, convertOllamaToOpenAI "gpt-3.5-turbo" chatRequest = some up ∧
      up.own "messages" =
        arr [messageObj "system" (str "be terse"), messageObj "user" (str "hi")] ∧
      up.own "model" = str "gpt-4" := by
  refine ⟨rfl, ?_⟩
  obtain ⟨up, hup, hms, -, -, hmodel, -⟩ :=
    chat_messages_and_model "gpt-3.5-turbo" chatRequest rfl
  exact ⟨up, hup, hms _ rfl, hmodel "gpt-4" (by decide) rfl⟩

/-- Counterexample to C10 as stated: the request sets `model` to the empty
text, yet the upstream model is the default identifier, not the request's
model. -/
theorem chat_messages_and_model_counterexample :
    emptyModelRequest.own "model" = str "" ∧
    (convertOllamaToOpenAI "gpt-3.5-turbo" emptyModelRequest).map (fun up => up.own "model") =
      some (str "gpt-3.5-turbo") ∧
    str "gpt-3.5-turbo" ≠ str "" := by
  refine ⟨rfl, rfl, ?_⟩
  simp

/-! ## ModelCatalog -/

/-- C8. For every catalog state, time and upstream outcome, a call of
`fetchOpenAIModels` attempts an upstream fetch exactly when there is no cache
or the age of the cache is at least 300000 ms, and then attempts exactly one;
when a cache exists and is younger, the call returns the cached list and leaves
the cache and its timestamp unchanged; and a further call made while the cache
left by this call is younger than 300000 ms returns what this call returned,
without a fetch. -/
theorem fetch_obeys_ttl (env : CatalogEnv) (D : String) (catalog : Catalog) (now : Int)
    (upstream : Upstream) :
    ((catalog.cachedModels = none ∨ 300000 ≤ now - catalog.lastFetchTime) →
      (fetchOpenAIModels env D catalog now upstream).fetches = 1) ∧
    (FreshCache catalog now →
      (fetchOpenAIModels env D catalog now upstream).fetches = 0 ∧
      some (fetchOpenAIModels env D catalog now upstream).returned = catalog.cachedModels ∧
      (fetchOpenAIModels env D catalog now upstream).catalog = catalog) ∧
    (∀ (env2 : CatalogEnv) (now2 : Int) (upstream2 : Upstream),
      FreshCache (fetchOpenAIModels env D catalog now upstream).catalog now2 →
      (fetchOpenAIModels env2 D (fetchOpenAIModels env D catalog now upstream).catalog now2
          upstream2).returned = (fetchOpenAIModels env D catalog now upstream).returned ∧
      (fetchOpenAIModels env2 D (fetchOpenAIModels env D catalog now upstream).catalog now2
          upstream2).fetches = 0) := by
  have hfresh : ∀ (e : CatalogEnv) (c : Catalog) (t : Int) (u : Upstream), FreshCache c t →
      (fetchOpenAIModels e D c t u).fetches = 0 ∧
      some (fetchOpenAIModels e D c t u).returned = c.cachedModels ∧
      (fetchOpenAIModels e D c t u).catalog = c := by
    intro e c t u ⟨hc, hage⟩
    obtain ⟨cached, hcached⟩ := Option.ne_none_iff_exists'.mp hc
    have hlt : t - c.lastFetchTime < CACHE_DURATION := by
      unfold CACHE_DURATION; omega
    simp [fetchOpenAIModels, hcached, hlt]
  refine ⟨?_, hfresh env catalog now upstream, ?_⟩
  · intro h
    unfold fetchOpenAIModels
    rcases h with h | h
    · simp only [h, Option.isSome_none, Bool.false_and]
      cases tryFetch env upstream <;> simp
    · have hlt : ¬ (now - catalog.lastFetchTime < CACHE_DURATION) := by
        unfold CACHE_DURATION; omega
      simp only [hlt, decide_False, Bool.and_false]
      cases tryFetch env upstream <;> cases catalog.cachedModels <;> simp
  · intro env2 now2 upstream2 hf
    obtain ⟨h0, hret, -⟩ := hfresh env2 _ now2 upstream2 hf
    refine ⟨?_, h0⟩
    have hprev : (fetchOpenAIModels env D catalog now upstream).catalog.cachedModels =
        some (fetchOpenAIModels env D catalog now upstream).returned := by
      have hne := hf.1
      revert hne
      unfold fetchOpenAIModels
      cases hc : catalog.cachedModels with
      | none =>
        cases tryFetch env upstream <;> simp [hc]
      | some cached =>
        by_cases hlt : now - catalog.lastFetchTime < CACHE_DURATION
        · simp [hlt, hc]
        · cases tryFetch env upstream <;> simp [hlt, hc]
    rw [hprev] at hret
    exact Option.some.inj hret

/-- Witness of C8: a cache fetched at time 1000 is returned at time 2000
without a fetch, and at time 301000 one fetch is attempted. -/
theorem fetch_obeys_ttl_witness :
    FreshCache { cachedModels := some demoCache, lastFetchTime := 1000 } 2000 ∧
    (fetchOpenAIModels demoCatalogEnv "gpt-3.5-turbo"
      { cachedModels := some demoCache, lastFetchTime := 1000 } 2000
      Upstream.rejected).fetches = 0 ∧
    some (fetchOpenAIModels demoCatalogEnv "gpt-3.5-turbo"
      { cachedModels := some demoCache, lastFetchTime := 1000 } 2000
      Upstream.rejected).returned = some demoCache ∧
    (fetchOpenAIModels demoCatalogEnv "gpt-3.5-turbo"
      { cachedModels := some demoCache, lastFetchTime := 1000 } 301000
      Upstream.rejected).fetches = 1 := by
  have hfresh : FreshCache { cachedModels := some demoCache, lastFetchTime := 1000 } 2000 :=
    ⟨by simp, by decide⟩
  have h1 := (fetch_obeys_ttl demoCatalogEnv "gpt-3.5-turbo"
    { cachedModels := some demoCache, lastFetchTime := 1000 } 2000 Upstream.rejected).2.1 hfresh
  have h2 := (fetch_obeys_ttl demoCatalogEnv "gpt-3.5-turbo"
    { cachedModels := some demoCache, lastFetchTime := 1000 } 301000 Upstream.rejected).1
    (Or.inr (by decide))
  exact ⟨hfresh, h1.1, h1.2.1, h2⟩

/-- C7. Whenever the upstream fetch is attempted and fails, the call leaves the
cache and its timestamp unchanged and returns the cached list if there is one;
if there is none it returns a list of exactly one entry whose name and model
are the default model identifier, whose digest is `fallback123456789abcdef`
and whose size, parameter size and quantization level are those of
`generateModelMetadata` for the default identifier. -/
theorem fetch_failure_fallback (env : CatalogEnv) (D : String) (catalog : Catalog) (now : Int)
    (upstream : Upstream)
    (hattempt : catalog.cachedModels = none ∨ CACHE_DURATION ≤ now - catalog.lastFetchTime)
    (hfail : tryFetch env upstream = none) :
    (fetchOpenAIModels env D catalog now upstream).catalog = catalog ∧
    (fetchOpenAIModels env D catalog now upstream).fetches = 1 ∧
    (∀ cached, catalog.cachedModels = some cached →
      (fetchOpenAIModels env D catalog now upstream).returned = cached) ∧
    (catalog.cachedModels = none →
      ∃ entry, (fetchOpenAIModels env D catalog now upstream).returned =
          obj [("models", arr [entry])] ∧
        entry.own "name" = str D ∧ entry.own "model" = str D ∧
        entry.own "digest" = str "fallback123456789abcdef" ∧
        entry.own "size" = (generateModelMetadata D).own "size" ∧
        (entry.own "details").own "parameter_size" = (generateModelMetadata D).own "param" ∧
        (entry.own "details").own "quantization_level" =
          (generateModelMetadata D).own "quant") := by
  have hcond : (catalog.cachedModels.isSome &&
      decide (now - catalog.lastFetchTime < CACHE_DURATION)) = false := by
    rcases hattempt with h | h
    · simp [h]
    · have : ¬ (now - catalog.lastFetchTime < CACHE_DURATION) := by omega
      simp [this]
  unfold fetchOpenAIModels
  simp only [hcond, hfail, Bool.false_eq_true, if_false]
  cases hc : catalog.cachedModels with
  | some cached => simp
  | none =>
    refine ⟨rfl, rfl, by simp, fun _ => ?_⟩
    refine ⟨_, rfl, ?_⟩
    simp [modelEntry, own_obj_cons]

/-- Witness of C7: at start-up (no cache) the upstream request is rejected,
and with an expired cache the upstream body is malformed. -/
theorem fetch_failure_fallback_witness :
    ((Catalog.init.cachedModels = none ∨ CACHE_DURATION ≤ 1000 - Catalog.init.lastFetchTime) ∧
      tryFetch demoCatalogEnv Upstream.rejected = none ∧
      (fetchOpenAIModels demoCatalogEnv "gpt-3.5-turbo" Catalog.init 1000
        Upstream.rejected).catalog = Catalog.init) ∧
    (CACHE_DURATION ≤ 300000 - (0 : Int) ∧
      tryFetch demoCatalogEnv (Upstream.resolved malformedResponse) = none ∧
      (fetchOpenAIModels demoCatalogEnv "gpt-3.5-turbo"
        { cachedModels := some demoCache, lastFetchTime := 0 } 300000
        (Upstream.resolved malformedResponse)).returned = demoCache) :=
  ⟨⟨Or.inl rfl, rfl,
    (fetch_failure_fallback demoCatalogEnv "gpt-3.5-turbo" Catalog.init 1000
      Upstream.rejected (Or.inl rfl) rfl).1⟩,
   ⟨by decide, rfl,
    (fetch_failure_fallback demoCatalogEnv "gpt-3.5-turbo"
      { cachedModels := some demoCache, lastFetchTime := 0 } 300000
      (Upstream.resolved malformedResponse) (Or.inr (by decide)) rfl).2.2.1 demoCache rfl⟩⟩

/-! ## The chunk invariant -/

theorem hasKey_obj_cons (k key : String) (v : JsVal) (fs : List (String × JsVal)) :
    (obj ((k, v) :: fs)).hasKey key = if key = k then true else (obj fs).hasKey key := by
  by_cases h : key = k
  · subst h
    simp [JsVal.hasKey, List.lookup]
  · have hb : (key == k) = false := by simpa using h
    simp [JsVal.hasKey, List.lookup, hb, h]

theorem hasKey_obj_nil (key : String) : (obj []).hasKey key = false := rfl

theorem isNonNegInt_ofNat (n : Nat) : (ofNat n).IsNonNegInt := ⟨n, rfl⟩

theorem isNonNegInt_ofInt (z : Int) (hz : 0 ≤ z) : (ofInt z).IsNonNegInt := by
  refine ⟨z.toNat, ?_⟩
  unfold JsVal.ofInt
  congr 1
  have h : ((z.toNat : Int) : ℚ) = (z : ℚ) := by rw [Int.toNat_of_nonneg hz]
  exact_mod_cast h.symm

theorem isNonNegInt_randomDuration (fl : Rounding) (r : ℚ) (scale offset : Nat)
    (hr : 0 ≤ r) : (randomDuration fl r scale offset).IsNonNegInt := by
  apply isNonNegInt_ofInt
  have h1 : (0 : ℚ) ≤ r * (scale : ℚ) := mul_nonneg hr (Nat.cast_nonneg scale)
  have h2 : 0 ≤ ⌊fl.apply (r * (scale : ℚ))⌋ := Int.floor_nonneg.mpr (fl.nonneg _ h1)
  omega

theorem isNonNegInt_promptEstimate (fl : Rounding) (n : Nat) :
    (ofInt ⌊fl.apply ((n : ℚ) * pointThree)⌋).IsNonNegInt := by
  apply isNonNegInt_ofInt
  apply Int.floor_nonneg.mpr
  apply fl.nonneg
  unfold pointThree
  positivity

theorem isNonNegInt_or_zero (v : JsVal) (hv : TokenCount v) : (v.or (num 0)).IsNonNegInt := by
  rcases hv with h | h | ⟨n, h⟩
  · subst h; exact ⟨0, by simp [JsVal.or, JsVal.truthy]⟩
  · subst h; exact ⟨0, by simp [JsVal.or, JsVal.truthy]⟩
  · subst h
    by_cases hn : (n : ℚ) = 0
    · exact ⟨0, by simp [JsVal.or, JsVal.truthy, hn]⟩
    · exact ⟨n, by simp [JsVal.or, JsVal.truthy, hn]⟩

theorem chunkInvariant_ollamaChunk (variant : Variant) (model : JsVal) (now : String)
    (content : JsVal) : ChunkInvariant (ollamaChunk variant model now content) := by
  cases variant <;>
    simp [ChunkInvariant, ollamaChunk, own_obj_cons, own_obj_nil, hasKey_obj_cons,
      hasKey_obj_nil, timingKeys]

theorem chunkInvariant_terminal_chat (model message : JsVal) (now : String) (fl : Rounding)
    (rnd : Nat → ℚ) (promptCount evalCount : JsVal) (hr : UnitDraws rnd)
    (hp : promptCount.IsNonNegInt) (he : evalCount.IsNonNegInt) :
    ChunkInvariant (obj ([("model", model), ("created_at", str now), ("message", message),
      ("done", bool true), ("done_reason", str "stop")] ++
      timingFields fl rnd promptCount evalCount)) := by
  have h0 := isNonNegInt_randomDuration fl (rnd 0) 1000000000 500000000 (hr 0).1
  have h1 := isNonNegInt_randomDuration fl (rnd 1) 10000000 1000000 (hr 1).1
  have h2 := isNonNegInt_randomDuration fl (rnd 2) 100000000 50000000 (hr 2).1
  have h3 := isNonNegInt_randomDuration fl (rnd 3) 500000000 200000000 (hr 3).1
  simp [ChunkInvariant, timingFields, own_obj_cons, own_obj_nil, hasKey_obj_cons,
    hasKey_obj_nil, timingKeys, numericKeys, h0, h1, h2, h3, hp, he]

theorem chunkInvariant_terminal_generate (model response : JsVal) (now : String)
    (fl : Rounding) (rnd : Nat → ℚ) (promptCount evalCount : JsVal) (hr : UnitDraws rnd)
    (hp : promptCount.IsNonNegInt) (he : evalCount.IsNonNegInt) :
    ChunkInvariant (obj ([("model", model), ("created_at", str now), ("response", response),
      ("done", bool true), ("done_reason", str "stop"), ("context", arr [])] ++
      timingFields fl rnd promptCount evalCount)) := by
  have h0 := isNonNegInt_randomDuration fl (rnd 0) 1000000000 500000000 (hr 0).1
  have h1 := isNonNegInt_randomDuration fl (rnd 1) 10000000 1000000 (hr 1).1
  have h2 := isNonNegInt_randomDuration fl (rnd 2) 100000000 50000000 (hr 2).1
  have h3 := isNonNegInt_randomDuration fl (rnd 3) 500000000 200000000 (hr 3).1
  simp [ChunkInvariant, timingFields, own_obj_cons, own_obj_nil, hasKey_obj_cons,
    hasKey_obj_nil, timingKeys, numericKeys, h0, h1, h2, h3, hp, he]

theorem chunkInvariant_finalResponse (variant : Variant) (model : JsVal) (now : String)
    (fl : Rounding) (rnd : Nat → ℚ) (totalTokens : Nat) (hr : UnitDraws rnd) :
    ChunkInvariant (finalResponse variant model now fl rnd totalTokens) := by
  cases variant
  · exact chunkInvariant_terminal_chat _ _ _ _ _ _ _ hr (isNonNegInt_promptEstimate _ _)
      (isNonNegInt_ofNat _)
  · exact chunkInvariant_terminal_generate _ _ _ _ _ _ _ hr (isNonNegInt_promptEstimate _ _)
      (isNonNegInt_ofNat _)

theorem chunkInvariant_convertChat (now : String) (fl : Rounding) (rnd : Nat → ℚ)
    (resp model : JsVal) (isStreaming : Bool) (c : JsVal) (hr : UnitDraws rnd)
    (hp : TokenCount ((resp.own "usage").optProp "prompt_tokens"))
    (he : TokenCount ((resp.own "usage").optProp "completion_tokens"))
    (hc : convertOpenAIToOllamaChat now fl rnd resp model isStreaming = some c) :
    ChunkInvariant c := by
  unfold convertOpenAIToOllamaChat at hc
  simp only [Option.bind_eq_bind, Option.bind_eq_some, Option.pure_def] at hc
  obtain ⟨choices, -, choice, -, message, -, role, -, content, -, hc⟩ := hc
  cases isStreaming with
  | true =>
    simp only [if_true, Option.some.injEq] at hc
    subst hc
    simp [ChunkInvariant, own_obj_cons, own_obj_nil, hasKey_obj_cons, hasKey_obj_nil,
      timingKeys]
  | false =>
    simp only [Bool.false_eq_true, if_false, Option.bind_eq_some, Option.some.injEq] at hc
    obtain ⟨usage, husage, hc⟩ := hc
    subst hc
    have hu : usage = resp.own "usage" := by
      unfold JsVal.prop at husage
      split at husage
      · cases husage
      · exact (Option.some.inj husage).symm
    subst hu
    exact chunkInvariant_terminal_chat _ _ _ _ _ _ _ hr (isNonNegInt_or_zero _ hp)
      (isNonNegInt_or_zero _ he)

theorem chunkInvariant_convertGenerate (now : String) (fl : Rounding) (rnd : Nat → ℚ)
    (resp model : JsVal) (isStreaming : Bool) (c : JsVal) (hr : UnitDraws rnd)
    (hp : TokenCount ((resp.own "usage").optProp "prompt_tokens"))
    (he : TokenCount ((resp.own "usage").optProp "completion_tokens"))
    (hc : convertOpenAIToOllamaGenerate now fl rnd resp model isStreaming = some c) :
    ChunkInvariant c := by
  unfold convertOpenAIToOllamaGenerate at hc
  simp only [Option.bind_eq_bind, Option.bind_eq_some, Option.pure_def] at hc
  obtain ⟨choices, -, choice, -, message, -, content, -, hc⟩ := hc
  cases isStreaming with
  | true =>
    simp only [if_true, Option.some.injEq] at hc
    subst hc
    exact chunkInvariant_ollamaChunk Variant.generate model now content
  | false =>
    simp only [Bool.false_eq_true, if_false, Option.bind_eq_some, Option.some.injEq] at hc
    obtain ⟨usage, husage, hc⟩ := hc
    subst hc
    have hu : usage = resp.own "usage" := by
      unfold JsVal.prop at husage
      split at husage
      · cases husage
      · exact (Option.some.inj husage).symm
    subst hu
    exact chunkInvariant_terminal_generate _ _ _ _ _ _ _ hr (isNonNegInt_or_zero _ hp)
      (isNonNegInt_or_zero _ he)

theorem writesInvariant_resWrite (st : StreamState) (chunk : JsVal)
    (hst : WritesInvariant st) (hc : ChunkInvariant chunk) :
    ∀ c ∈ resWrite st.ended st.writes chunk, ChunkInvariant c := by
  intro c hmem
  unfold resWrite at hmem
  split at hmem
  · exact hst c hmem
  · simp only [List.mem_append, List.mem_singleton] at hmem
    rcases hmem with hmem | hmem
    · exact hst c hmem
    · subst hmem
      exact hc

theorem writesInvariant_onLine (env : Env) (variant : Variant) (model : JsVal)
    (st : StreamState) (line : String) (hr : UnitDraws env.random)
    (hst : WritesInvariant st) : WritesInvariant (onLine env variant model st line).1 := by
  unfold onLine
  dsimp only
  split
  · split
    · exact writesInvariant_resWrite st _ hst
        (chunkInvariant_finalResponse _ _ _ _ _ _ (fun i => hr (st.randomCalls + i)))
    · split
      · exact hst
      · split
        · exact hst
        · split
          · split
            · exact writesInvariant_resWrite st _ hst (chunkInvariant_ollamaChunk _ _ _ _)
            · exact hst
          · exact hst
  · exact hst

theorem writesInvariant_processLines (env : Env) (variant : Variant) (model : JsVal)
    (hr : UnitDraws env.random) (lines : List String) :
    ∀ st, WritesInvariant st → WritesInvariant (processLines env variant model st lines) := by
  induction lines with
  | nil => intro st hst; exact hst
  | cons line rest ih =>
    intro st hst
    unfold processLines
    dsimp only
    have hstep := writesInvariant_onLine env variant model st line hr hst
    split
    · exact hstep
    · exact ih _ hstep

theorem writesInvariant_feed (env : Env) (variant : Variant) (model : JsVal)
    (hr : UnitDraws env.random) (chunks : List String) :
    ∀ st, WritesInvariant st → WritesInvariant (feed env variant model st chunks) := by
  induction chunks with
  | nil => intro st hst; exact hst
  | cons chunk rest ih =>
    intro st hst
    unfold feed
    rw [List.foldl_cons]
    exact ih _ (writesInvariant_processLines env variant model hr _ st hst)

/-- C9 (amended). Every chunk the program builds satisfies the chunk invariant:
the chunks of `convertOpenAIToOllamaChat` and `convertOpenAIToOllamaGenerate`,
for every upstream response whose usage counters are token counts (each one
absent, `null` or a non-negative integer), and every chunk either streaming
handler sends, for every sequence of raw chunks; in each case for all draws of
`Math.random()` in `[0, 1)`. A chunk with `done = false` carries no timing
member; a chunk with `done = true` carries all of them, with
`done_reason = "stop"` and non-negative integer durations and counts. -/
theorem chunks_satisfy_invariant :
    (∀ (now : String) (fl : Rounding) (rnd : Nat → ℚ) (resp model : JsVal)
        (isStreaming : Bool) (c : JsVal),
      UnitDraws rnd →
      TokenCount ((resp.own "usage").optProp "prompt_tokens") →
      TokenCount ((resp.own "usage").optProp "completion_tokens") →
      (convertOpenAIToOllamaChat now fl rnd resp model isStreaming = some c ∨
        convertOpenAIToOllamaGenerate now fl rnd resp model isStreaming = some c) →
      ChunkInvariant c) ∧
    (∀ (env : Env) (variant : Variant) (model : JsVal) (chunks : List String),
      UnitDraws env.random →
      ∀ c ∈ (feed env variant model StreamState.init chunks).writes, ChunkInvariant c) := by
  refine ⟨?_, ?_⟩
  · intro now fl rnd resp model isStreaming c hr hp he hc
    rcases hc with hc | hc
    · exact chunkInvariant_convertChat now fl rnd resp model isStreaming c hr hp he hc
    · exact chunkInvariant_convertGenerate now fl rnd resp model isStreaming c hr hp he hc
  · intro env variant model chunks hr
    exact writesInvariant_feed env variant model hr chunks StreamState.init
      (fun c hc => by simp [StreamState.init] at hc)

/-- Witness of C9: the terminal chunk built from a complete upstream response
with usage counters 7 and 3, and the chunks sent for the example stream. -/
theorem chunks_satisfy_invariant_witness :
    UnitDraws (fun _ => (1 / 2 : ℚ)) ∧
    TokenCount ((demoResponse.own "usage").optProp "prompt_tokens") ∧
    TokenCount ((demoResponse.own "usage").optProp "completion_tokens") ∧
    (∃ c, convertOpenAIToOllamaChat "2024-01-01T00:00:00.000Z" Rounding.exact
        (fun _ => 1 / 2) demoResponse (str "gpt-4") false = some c ∧
      c.own "done" = JsVal.bool true ∧ ChunkInvariant c) ∧
    (∀ c ∈ (feed demoEnv Variant.chat (str "gpt-4") StreamState.init
        (rawChunks 1 [[helFrame]] [loFrame])).writes, ChunkInvariant c) := by
  have hr : UnitDraws (fun _ => (1 / 2 : ℚ)) := fun _ => ⟨by norm_num, by norm_num⟩
  have hp : TokenCount ((demoResponse.own "usage").optProp "prompt_tokens") :=
    Or.inr (Or.inr ⟨7, by
      simp [demoResponse, own_obj_cons, JsVal.optProp, JsVal.nullish]⟩)
  have he : TokenCount ((demoResponse.own "usage").optProp "completion_tokens") :=
    Or.inr (Or.inr ⟨3, by
      simp [demoResponse, own_obj_cons, JsVal.optProp, JsVal.nullish]⟩)
  refine ⟨hr, hp, he, ⟨_, rfl, rfl, ?_⟩, ?_⟩
  · exact chunks_satisfy_invariant.1 "2024-01-01T00:00:00.000Z" Rounding.exact
      (fun _ => 1 / 2) demoResponse (str "gpt-4") false _ hr hp he (Or.inl rfl)
  · exact chunks_satisfy_invariant.2 demoEnv Variant.chat (str "gpt-4")
      (rawChunks 1 [[helFrame]] [loFrame]) hr

/-- Counterexample to C9 as stated: for the upstream response with usage
`{prompt_tokens: -5, completion_tokens: 2.5}` the chat converter builds a chunk
with `done = true` whose `prompt_eval_count` is -5 and whose `eval_count` is
2.5, neither of them a non-negative integer. -/
theorem negative_usage_forwarded :
    ∃ c, convertOpenAIToOllamaChat "2024-01-01T00:00:00.000Z" Rounding.exact
        (fun _ => 1 / 2) badUsageResponse (str "gpt-4") false = some c ∧
      c.own "done" = JsVal.bool true ∧
      c.own "prompt_eval_count" = num (-5) ∧
      c.own "eval_count" = num (5 / 2) ∧
      ¬ (c.own "prompt_eval_count").IsNonNegInt ∧
      ¬ (c.own "eval_count").IsNonNegInt ∧
      ¬ ChunkInvariant c := by
  have hp : (((badUsageResponse.own "usage").optProp "prompt_tokens").or (num 0)) =
      num (-5) := by
    simp [badUsageResponse, own_obj_cons, JsVal.optProp, JsVal.nullish, JsVal.or, JsVal.truthy]
  have he : (((badUsageResponse.own "usage").optProp "completion_tokens").or (num 0)) =
      num (5 / 2) := by
    simp [badUsageResponse, own_obj_cons, JsVal.optProp, JsVal.nullish, JsVal.or, JsVal.truthy]
  have hneg : ¬ (num (-5)).IsNonNegInt := by
    rintro ⟨n, hn⟩
    have h : (-5 : ℚ) = (n : ℚ) := JsVal.num.inj hn
    have h0 : (0 : ℚ) ≤ (n : ℚ) := Nat.cast_nonneg n
    linarith
  have hfrac : ¬ (num (5 / 2)).IsNonNegInt := by
    rintro ⟨n, hn⟩
    have h : (5 / 2 : ℚ) = (n : ℚ) := JsVal.num.inj hn
    have h2 : ((5 : ℕ) : ℚ) = ((2 * n : ℕ) : ℚ) := by
      push_cast
      linarith
    have h3 : 5 = 2 * n := by exact_mod_cast h2
    omega
  refine ⟨_, rfl, rfl, ?_, ?_, ?_, ?_, ?_⟩
  · simp only [own_obj_cons, own_obj_nil, timingFields, List.cons_append, List.nil_append]
    simpa using hp
  · simp only [own_obj_cons, own_obj_nil, timingFields, List.cons_append, List.nil_append]
    simpa using he
  · simp only [own_obj_cons, own_obj_nil, timingFields, List.cons_append, List.nil_append]
    simpa [hp] using hneg
  · simp only [own_obj_cons, own_obj_nil, timingFields, List.cons_append, List.nil_append]
    simpa [he] using hfrac
  · intro hinv
    have hnum := (hinv.2.2 rfl).2.2 "prompt_eval_count" (by simp [numericKeys])
    simp only [own_obj_cons, own_obj_nil, timingFields, List.cons_append,
      List.nil_append] at hnum
    exact hneg (by simpa [hp] using hnum)

/-! ## StreamReframer: lines of a raw chunk -/

/-- The lines the handler iterates over, from the characters of the chunk. -/
theorem chunkLines_eq (chunk : String) :
    chunkLines chunk = ((splitNewline chunk.data).map String.mk).filter trimTruthy := rfl

theorem splitNewline_line_append (l rest : List Char) (hl : '\n' ∉ l) :
    splitNewline (l ++ '\n' :: rest) = l :: splitNewline rest := by
  induction l with
  | nil => simp [splitNewline]
  | cons c l ih =>
    have hc : c ≠ '\n' := fun h => hl (by simp [h])
    have hl2 : '\n' ∉ l := fun h => hl (by simp [h])
    rw [List.cons_append, splitNewline, if_neg hc, ih hl2]

theorem splitNewline_single (l : List Char) (hl : '\n' ∉ l) : splitNewline l = [l] := by
  induction l with
  | nil => simp [splitNewline]
  | cons c l ih =>
    have hc : c ≠ '\n' := fun h => hl (by simp [h])
    have hl2 : '\n' ∉ l := fun h => hl (by simp [h])
    rw [splitNewline, if_neg hc, ih hl2]

theorem splitNewline_replicate_append (gap : Nat) (rest : List Char) :
    splitNewline (List.replicate gap '\n' ++ rest) =
      List.replicate gap [] ++ splitNewline rest := by
  induction gap with
  | zero => simp
  | succ n ih =>
    rw [List.replicate_succ, List.cons_append, splitNewline, if_pos rfl, ih,
      List.replicate_succ, List.cons_append]

theorem trimTruthy_empty : trimTruthy (String.mk []) = false := rfl

theorem filter_replicate_empty (gap : Nat) (rest : List String) :
    ((List.replicate gap ([] : List Char)).map String.mk ++ rest).filter trimTruthy =
      rest.filter trimTruthy := by
  induction gap with
  | zero => simp
  | succ n ih =>
    rw [List.replicate_succ, List.map_cons, List.cons_append, List.filter_cons,
      trimTruthy_empty]
    simpa using ih

theorem chunkLines_renderLines (gap : Nat) (lines : List String)
    (hline : ∀ l ∈ lines, SingleLine l) :
    chunkLines (renderLines gap lines) = lines.filter trimTruthy := by
  induction lines with
  | nil => rfl
  | cons l rest ih =>
    have hl : '\n' ∉ l.data := hline l (by simp)
    have hrest := ih (fun x hx => hline x (by simp [hx]))
    rw [chunkLines_eq] at hrest ⊢
    have hdata : (renderLines gap (l :: rest)).data =
        l.data ++ '\n' :: (List.replicate gap '\n' ++ (renderLines gap rest).data) := by
      simp [renderLines, String.data_append]
    rw [hdata, splitNewline_line_append _ _ hl, splitNewline_replicate_append, List.map_cons,
      List.map_append, List.filter_cons, filter_replicate_empty, hrest, List.filter_cons]

theorem chunkLines_joinLines (lines : List String) (hline : ∀ l ∈ lines, SingleLine l) :
    chunkLines (joinLines lines) = lines.filter trimTruthy := by
  rw [chunkLines_eq]
  have key : ∀ (ls : List String), (∀ l ∈ ls, SingleLine l) → ls ≠ [] →
      (splitNewline (joinLines ls).data).map String.mk = ls := by
    intro ls
    induction ls with
    | nil => intro _ h; exact absurd rfl h
    | cons l rest ih =>
      intro hls _
      have hl : '\n' ∉ l.data := hls l (by simp)
      cases rest with
      | nil =>
        simp only [joinLines]
        rw [splitNewline_single _ hl]
        cases l
        rfl
      | cons l2 rest2 =>
        have hdata : (joinLines (l :: l2 :: rest2)).data =
            l.data ++ '\n' :: (joinLines (l2 :: rest2)).data := by
          simp [joinLines, String.data_append]
        rw [hdata, splitNewline_line_append _ _ hl, List.map_cons,
          ih (fun x hx => hls x (by simp [hx])) (by simp)]
  cases lines with
  | nil => rfl
  | cons l rest => rw [key _ hline (by simp)]

/-! ## StreamReframer: one line -/

theorem frameLine_data (p : String) :
    (frameLine p).data = 'd' :: 'a' :: 't' :: 'a' :: ':' :: ' ' :: p.data := by
  simp [frameLine, String.data_append]

theorem startsWithData_frameLine (p : String) : startsWithData (frameLine p) = true := by
  simp [startsWithData, frameLine_data, List.isPrefixOf]

theorem slice6_frameLine (p : String) : slice6 (frameLine p) = p := by
  simp [slice6, frameLine_data]

theorem trimTruthy_frameLine (p : String) : trimTruthy (frameLine p) = true := by
  simp [trimTruthy, frameLine_data, isJsWhitespace]

theorem singleLine_frameLine (p : String) (hp : SingleLine p) : SingleLine (frameLine p) := by
  unfold SingleLine at hp ⊢
  rw [frameLine_data]
  simp [hp]

theorem processLines_cons (env : Env) (variant : Variant) (model : JsVal) (st : StreamState)
    (line : String) (rest : List String) :
    processLines env variant model st (line :: rest) =
      if (onLine env variant model st line).2 then (onLine env variant model st line).1
      else processLines env variant model (onLine env variant model st line).1 rest := rfl

theorem resWrite_open (sent : List JsVal) (chunk : JsVal) :
    resWrite false sent chunk = sent ++ [chunk] := rfl

theorem resWrite_ended (sent : List JsVal) (chunk : JsVal) :
    resWrite true sent chunk = sent := rfl

theorem stringConvertible_str (s : String) : stringConvertible (str s) = true := by
  simp [stringConvertible]

theorem onLine_done (env : Env) (variant : Variant) (model : JsVal) (st : StreamState)
    (hopen : st.ended = false) :
    onLine env variant model st doneLine =
      ({ st with
          writes := st.writes ++ [finalResponse variant model (env.date st.dateCalls)
            env.round (fun i => env.random (st.randomCalls + i)) st.totalTokens]
          ended := true
          dateCalls := st.dateCalls + 1
          randomCalls := st.randomCalls + 4 }, true) := by
  unfold onLine doneLine
  simp [startsWithData_frameLine, slice6_frameLine, hopen, resWrite_open]

theorem onLine_skip (env : Env) (variant : Variant) (model : JsVal) (st : StreamState)
    (line : String) (h : BadLine env.parse line) :
    onLine env variant model st line = (st, false) := by
  unfold onLine
  rcases h with h | ⟨hd, hp⟩
  · simp [h]
  · by_cases hs : startsWithData line = true
    · simp [hs, hd, hp]
    · simp [hs]

theorem deltaShape_content (v : JsVal) (content : Option String) (h : DeltaShape v content) :
    v.prop "choices" = some (v.own "choices") ∧
    (∀ s, content = some s →
      ((v.own "choices").optIndex0.optProp "delta").optProp "content" = str s) ∧
    (content = none →
      (((v.own "choices").optIndex0.optProp "delta").optProp "content").truthy = false) := by
  obtain ⟨fields, choice, rest, delta, hv, hchoices, hdelta, hcontent⟩ := h
  subst hv
  have h1 : (obj fields).own "choices" = arr (obj choice :: rest) := by
    simp [JsVal.own, hchoices]
  have h2 : ((obj fields).own "choices").optIndex0.optProp "delta" = obj delta := by
    rw [h1]
    simp [JsVal.optIndex0, JsVal.nullish, JsVal.first, JsVal.optProp, JsVal.own, hdelta]
  rw [h2]
  refine ⟨by simp [JsVal.prop, JsVal.nullish], ?_, ?_⟩
  · intro s hs
    subst hs
    simp only at hcontent
    simp [JsVal.optProp, JsVal.nullish, JsVal.own, hcontent]
  · intro hnone
    subst hnone
    simp only at hcontent
    rcases hcontent with hc | hc <;>
      simp [JsVal.optProp, JsVal.nullish, JsVal.own, hc, JsVal.truthy]

theorem onLine_delta_content (env : Env) (variant : Variant) (model : JsVal) (st : StreamState)
    (f : DeltaFrame) (hf : WellFormedDelta env.parse f) (s : String)
    (hs : f.content = some s) (hne : s ≠ "") (hopen : st.ended = false) :
    onLine env variant model st (frameLine f.payload) =
      ({ st with
          fullContent := st.fullContent ++ [str s]
          totalTokens := st.totalTokens + 1
          writes := st.writes ++ [ollamaChunk variant model (env.date st.dateCalls) (str s)]
          dateCalls := st.dateCalls + 1 }, false) := by
  obtain ⟨-, hnd, v, hparse, hshape⟩ := hf
  obtain ⟨hprop, hcontent, -⟩ := deltaShape_content v f.content hshape
  unfold onLine
  simp [startsWithData_frameLine, slice6_frameLine, hnd, hparse, hprop, hcontent s hs,
    JsVal.truthy, hne, hopen, resWrite_open, stringConvertible_str]

theorem onLine_delta_empty (env : Env) (variant : Variant) (model : JsVal) (st : StreamState)
    (f : DeltaFrame) (hf : WellFormedDelta env.parse f)
    (hs : f.content = none ∨ f.content = some "") :
    onLine env variant model st (frameLine f.payload) = (st, false) := by
  obtain ⟨-, hnd, v, hparse, hshape⟩ := hf
  obtain ⟨hprop, hcontent, hnone⟩ := deltaShape_content v f.content hshape
  unfold onLine
  rcases hs with hs | hs
  · simp [startsWithData_frameLine, slice6_frameLine, hnd, hparse, hprop, hnone hs]
  · simp [startsWithData_frameLine, slice6_frameLine, hnd, hparse, hprop, hcontent "" hs,
      JsVal.truthy]

/-- A truthy content that cannot be converted to a string raises a `TypeError`
inside the `try`: nothing is counted or sent. -/
theorem onLine_unconvertible (env : Env) (variant : Variant) (model : JsVal) (st : StreamState)
    (line : String) (parsed choices : JsVal) (hstart : startsWithData line = true)
    (hdata : slice6 line ≠ "[DONE]") (hparse : env.parse (slice6 line) = some parsed)
    (hchoices : parsed.prop "choices" = some choices)
    (hconv : stringConvertible ((choices.optIndex0.optProp "delta").optProp "content") = false) :
    onLine env variant model st line = (st, false) := by
  unfold onLine
  simp [hstart, hdata, hparse, hchoices, hconv]

theorem chunkView_ollamaChunk (variant : Variant) (model : JsVal) (now : String)
    (content : JsVal) :
    chunkView variant (ollamaChunk variant model now content) =
      (bool false, content, undefined) := by
  cases variant <;>
    simp [chunkView, chunkContent, ollamaChunk, own_obj_cons, own_obj_nil]

theorem chunkView_finalResponse (variant : Variant) (model : JsVal) (now : String)
    (fl : Rounding) (rnd : Nat → ℚ) (n : Nat) :
    chunkView variant (finalResponse variant model now fl rnd n) =
      (bool true, str "", ofNat n) := by
  cases variant <;>
    simp [chunkView, chunkContent, finalResponse, timingFields, own_obj_cons, own_obj_nil]

/-! ## StreamReframer: frames delivered inside raw chunks -/

theorem contentsOf_cons_content (f : DeltaFrame) (rest : List DeltaFrame) (s : String)
    (hs : f.content = some s) (hne : s ≠ "") :
    contentsOf (f :: rest) = s :: contentsOf rest := by
  simp [contentsOf, List.filterMap_cons, hs, Option.filter, hne]

theorem contentsOf_cons_empty (f : DeltaFrame) (rest : List DeltaFrame)
    (hs : f.content = none ∨ f.content = some "") :
    contentsOf (f :: rest) = contentsOf rest := by
  rcases hs with hs | hs <;> simp [contentsOf, List.filterMap_cons, hs, Option.filter]

theorem contentsOf_append (a b : List DeltaFrame) :
    contentsOf (a ++ b) = contentsOf a ++ contentsOf b := by
  simp [contentsOf, List.filterMap_append]

theorem content_cases (f : DeltaFrame) :
    (∃ s, f.content = some s ∧ s ≠ "") ∨ (f.content = none ∨ f.content = some "") := by
  cases h : f.content with
  | none => exact Or.inr (Or.inl rfl)
  | some s =>
    by_cases hs : s = ""
    · subst hs; exact Or.inr (Or.inr rfl)
    · exact Or.inl ⟨s, rfl, hs⟩

/-- Processing the lines of well-formed delta frames writes one non-terminal
chunk per non-empty content, counts it, and goes on with the lines after them. -/
theorem processLines_deltas (env : Env) (variant : Variant) (model : JsVal)
    (frames : List DeltaFrame) (hwf : ∀ f ∈ frames, WellFormedDelta env.parse f)
    (tail : List String) :
    ∀ st, st.ended = false → ∃ st',
      processLines env variant model st (frames.map (fun f => frameLine f.payload) ++ tail) =
        processLines env variant model st' tail ∧
      st'.writes.map (chunkView variant) =
        st.writes.map (chunkView variant) ++
          (contentsOf frames).map (fun s => (bool false, str s, undefined)) ∧
      st'.totalTokens = st.totalTokens + (contentsOf frames).length ∧
      st'.ended = st.ended := by
  induction frames with
  | nil =>
    intro st _
    exact ⟨st, rfl, by simp [contentsOf], by simp [contentsOf], rfl⟩
  | cons f rest ih =>
    intro st hopen
    have hf := hwf f (by simp)
    have hrest := ih (fun g hg => hwf g (by simp [hg]))
    rw [List.map_cons, List.cons_append, processLines_cons]
    rcases content_cases f with ⟨s, hs, hne⟩ | hs
    · rw [onLine_delta_content env variant model st f hf s hs hne hopen]
      obtain ⟨st', h1, h2, h3, h4⟩ := hrest
        { st with
          fullContent := st.fullContent ++ [str s]
          totalTokens := st.totalTokens + 1
          writes := st.writes ++ [ollamaChunk variant model (env.date st.dateCalls) (str s)]
          dateCalls := st.dateCalls + 1 } hopen
      refine ⟨st', by simpa using h1, ?_, ?_, by simpa using h4⟩
      · rw [h2, contentsOf_cons_content f rest s hs hne]
        simp [chunkView_ollamaChunk]
      · rw [h3, contentsOf_cons_content f rest s hs hne]
        simp only [List.length_cons]
        omega
    · rw [onLine_delta_empty env variant model st f hf hs]
      obtain ⟨st', h1, h2, h3, h4⟩ := hrest st hopen
      refine ⟨st', by simpa using h1, ?_, ?_, h4⟩
      · rw [h2, contentsOf_cons_empty f rest hs]
      · rw [h3, contentsOf_cons_empty f rest hs]

theorem filter_frameLines (frames : List DeltaFrame) (tail : List String)
    (htail : ∀ l ∈ tail, trimTruthy l = true) :
    (frames.map (fun f => frameLine f.payload) ++ tail).filter trimTruthy =
      frames.map (fun f => frameLine f.payload) ++ tail := by
  rw [List.filter_eq_self]
  intro l hl
  rw [List.mem_append, List.mem_map] at hl
  rcases hl with ⟨f, -, rfl⟩ | hl
  · exact trimTruthy_frameLine _
  · exact htail l hl

theorem singleLine_frameLines (env : Env) (frames : List DeltaFrame)
    (hwf : ∀ f ∈ frames, WellFormedDelta env.parse f) (tail : List String)
    (htail : ∀ l ∈ tail, SingleLine l) :
    ∀ l ∈ frames.map (fun f => frameLine f.payload) ++ tail, SingleLine l := by
  intro l hl
  rw [List.mem_append, List.mem_map] at hl
  rcases hl with ⟨f, hf, rfl⟩ | hl
  · exact singleLine_frameLine _ (hwf f hf).1
  · exact htail l hl

/-- A raw chunk that delivers delta frames only. -/
theorem onData_deltas (env : Env) (variant : Variant) (model : JsVal) (gap : Nat)
    (frames : List DeltaFrame) (hwf : ∀ f ∈ frames, WellFormedDelta env.parse f)
    (st : StreamState) (hopen : st.ended = false) :
    ((onData env variant model st
        (renderLines gap (frames.map (fun f => frameLine f.payload)))).writes.map
          (chunkView variant) =
        st.writes.map (chunkView variant) ++
          (contentsOf frames).map (fun s => (bool false, str s, undefined))) ∧
    (onData env variant model st
        (renderLines gap (frames.map (fun f => frameLine f.payload)))).totalTokens =
      st.totalTokens + (contentsOf frames).length ∧
    (onData env variant model st
        (renderLines gap (frames.map (fun f => frameLine f.payload)))).ended = st.ended := by
  have hlines := chunkLines_renderLines gap (frames.map (fun f => frameLine f.payload) ++ [])
    (singleLine_frameLines env frames hwf [] (by simp))
  rw [filter_frameLines frames [] (by simp)] at hlines
  obtain ⟨st', h1, h2, h3, h4⟩ :=
    processLines_deltas env variant model frames hwf [] st hopen
  rw [List.append_nil] at hlines h1
  unfold onData
  rw [hlines, h1]
  exact ⟨h2, h3, h4⟩

/-- A raw chunk that delivers delta frames and then the sentinel frame. -/
theorem onData_deltas_done (env : Env) (variant : Variant) (model : JsVal) (gap : Nat)
    (frames : List DeltaFrame) (hwf : ∀ f ∈ frames, WellFormedDelta env.parse f)
    (st : StreamState) (hopen : st.ended = false) :
    ((onData env variant model st
        (renderLines gap (frames.map (fun f => frameLine f.payload) ++ [doneLine]))).writes.map
          (chunkView variant) =
        st.writes.map (chunkView variant) ++
          (contentsOf frames).map (fun s => (bool false, str s, undefined)) ++
          [(bool true, str "", ofNat (st.totalTokens + (contentsOf frames).length))]) ∧
    (onData env variant model st
        (renderLines gap (frames.map (fun f => frameLine f.payload) ++ [doneLine]))).ended
      = true := by
  have hlines := chunkLines_renderLines gap
    (frames.map (fun f => frameLine f.payload) ++ [doneLine])
    (singleLine_frameLines env frames hwf [doneLine] (by
      intro l hl
      rw [List.mem_singleton] at hl
      subst hl
      exact singleLine_frameLine _ (by decide)))
  rw [filter_frameLines frames [doneLine] (by
      intro l hl
      rw [List.mem_singleton] at hl
      subst hl
      exact trimTruthy_frameLine _)] at hlines
  obtain ⟨st', h1, h2, h3, h4⟩ :=
    processLines_deltas env variant model frames hwf [doneLine] st hopen
  unfold onData
  rw [hlines, h1, processLines_cons, onLine_done env variant model st' (h4.trans hopen)]
  simp [h2, h3, chunkView_finalResponse]

theorem feed_groups (env : Env) (variant : Variant) (model : JsVal) (gap : Nat)
    (groups : List (List DeltaFrame))
    (hwf : ∀ g ∈ groups, ∀ f ∈ g, WellFormedDelta env.parse f) :
    ∀ st, st.ended = false →
      (feed env variant model st
          (groups.map (fun g => renderLines gap (g.map (fun f => frameLine f.payload))))).writes.map
            (chunkView variant) =
        st.writes.map (chunkView variant) ++
          (contentsOf groups.flatten).map (fun s => (bool false, str s, undefined)) ∧
      (feed env variant model st
          (groups.map (fun g => renderLines gap (g.map (fun f => frameLine f.payload))))).totalTokens
        = st.totalTokens + (contentsOf groups.flatten).length ∧
      (feed env variant model st
          (groups.map (fun g => renderLines gap (g.map (fun f => frameLine f.payload))))).ended
        = false := by
  induction groups with
  | nil =>
    intro st hopen
    simp [feed, contentsOf, hopen]
  | cons g rest ih =>
    intro st hopen
    obtain ⟨h1, h2, h0⟩ := onData_deltas env variant model gap g (hwf g (by simp)) st hopen
    obtain ⟨h3, h4, h5⟩ := ih (fun x hx => hwf x (by simp [hx]))
      (onData env variant model st (renderLines gap (g.map (fun f => frameLine f.payload))))
      (h0.trans hopen)
    unfold feed at h3 h4 h5 ⊢
    rw [List.map_cons, List.foldl_cons, List.flatten_cons, contentsOf_append]
    refine ⟨?_, ?_, h5⟩
    · rw [h3, h1, List.map_append, List.append_assoc]
    · rw [h4, h2, List.length_append]
      omega

/-- C1. For every sequence of well-formed delta frames followed by the frame
`data: [DONE]`, each frame delivered wholly inside one raw chunk, either
handler writes exactly one non-terminal chunk (done = false) for each delta
frame with non-empty content, in frame order and carrying that frame's
content, followed by one terminal chunk (done = true) whose `eval_count` is the
number of non-terminal chunks written; the response is then ended. -/
theorem reframer_delivers_frames (env : Env) (variant : Variant) (model : JsVal) (gap : Nat)
    (groups : List (List DeltaFrame)) (last : List DeltaFrame)
    (hwf : ∀ f ∈ groups.flatten ++ last, WellFormedDelta env.parse f) :
    (feed env variant model StreamState.init (rawChunks gap groups last)).writes.map
        (chunkView variant) =
      (contentsOf (groups.flatten ++ last)).map (fun s => (bool false, str s, undefined)) ++
        [(bool true, str "", ofNat (contentsOf (groups.flatten ++ last)).length)] ∧
    (feed env variant model StreamState.init (rawChunks gap groups last)).ended = true := by
  have hgroups : ∀ g ∈ groups, ∀ f ∈ g, WellFormedDelta env.parse f := by
    intro g hg f hf
    exact hwf f (List.mem_append_left _ (List.mem_flatten.mpr ⟨g, hg, hf⟩))
  have hlast : ∀ f ∈ last, WellFormedDelta env.parse f :=
    fun f hf => hwf f (List.mem_append_right _ hf)
  obtain ⟨h1, h2, h0⟩ :=
    feed_groups env variant model gap groups hgroups StreamState.init rfl
  obtain ⟨h3, h4⟩ := onData_deltas_done env variant model gap last hlast
    (feed env variant model StreamState.init
      (groups.map (fun g => renderLines gap (g.map (fun f => frameLine f.payload))))) h0
  have hfeed : feed env variant model StreamState.init (rawChunks gap groups last) =
      onData env variant model
        (feed env variant model StreamState.init
          (groups.map (fun g => renderLines gap (g.map (fun f => frameLine f.payload)))))
        (renderLines gap (last.map (fun f => frameLine f.payload) ++ [doneLine])) := by
    simp [feed, rawChunks, List.foldl_append]
  rw [hfeed]
  refine ⟨?_, h4⟩
  rw [h3, h1, h2, contentsOf_append]
  simp [StreamState.init]

/-- Witness of C1: the frames with contents `Hel` and `lo`, then `[DONE]`,
arriving in two raw chunks, give the chunks `Hel`, `lo` and a terminal chunk
with `eval_count = 2`. -/
theorem reframer_delivers_frames_witness :
    (∀ f ∈ [[helFrame]].flatten ++ [loFrame], WellFormedDelta demoEnv.parse f) ∧
    (feed demoEnv Variant.chat (str "gpt-4") StreamState.init
        (rawChunks 1 [[helFrame]] [loFrame])).writes.map (chunkView Variant.chat) =
      [(JsVal.bool false, str "Hel", undefined), (JsVal.bool false, str "lo", undefined),
       (JsVal.bool true, str "", ofNat 2)] := by
  have hwf : ∀ f ∈ [[helFrame]].flatten ++ [loFrame], WellFormedDelta demoEnv.parse f := by
    intro f hf
    have hf2 : f = helFrame ∨ f = loFrame := by simpa using hf
    rcases hf2 with rfl | rfl
    · exact ⟨by decide, by decide, deltaJson "Hel", rfl,
        ⟨_, _, _, _, rfl, rfl, rfl, rfl⟩⟩
    · exact ⟨by decide, by decide, deltaJson "lo", rfl,
        ⟨_, _, _, _, rfl, rfl, rfl, rfl⟩⟩
  exact ⟨hwf, (reframer_delivers_frames demoEnv Variant.chat (str "gpt-4") 1
    [[helFrame]] [loFrame] hwf).1⟩

/-! ## StreamReframer: discarded lines -/

theorem processLines_skip (env : Env) (variant : Variant) (model : JsVal) (bad : String)
    (hbad : BadLine env.parse bad) (before after : List String) :
    ∀ st, processLines env variant model st (before ++ bad :: after) =
      processLines env variant model st (before ++ after) := by
  induction before with
  | nil =>
    intro st
    rw [List.nil_append, List.nil_append, processLines_cons,
      onLine_skip env variant model st bad hbad]
    simp
  | cons l rest ih =>
    intro st
    rw [List.cons_append, List.cons_append, processLines_cons, processLines_cons, ih]

/-- C3. A line that does not start with `data: `, or whose payload is neither
`[DONE]` nor parseable, is discarded without effect: removing it from a raw
chunk changes nothing in the state the handler leaves (the chunks written, the
token counter, whether the response is ended), from any state. -/
theorem bad_line_discarded (env : Env) (variant : Variant) (model : JsVal) (st : StreamState)
    (before after : List String) (bad : String)
    (hbefore : ∀ l ∈ before, SingleLine l) (hafter : ∀ l ∈ after, SingleLine l)
    (hline : SingleLine bad) (hbad : BadLine env.parse bad) :
    onData env variant model st (joinLines (before ++ bad :: after)) =
      onData env variant model st (joinLines (before ++ after)) := by
  have h1 : ∀ l ∈ before ++ bad :: after, SingleLine l := by
    intro l hl
    rw [List.mem_append, List.mem_cons] at hl
    rcases hl with hl | rfl | hl
    · exact hbefore l hl
    · exact hline
    · exact hafter l hl
  have h2 : ∀ l ∈ before ++ after, SingleLine l := by
    intro l hl
    rw [List.mem_append] at hl
    rcases hl with hl | hl
    · exact hbefore l hl
    · exact hafter l hl
  unfold onData
  rw [chunkLines_joinLines _ h1, chunkLines_joinLines _ h2, List.filter_append,
    List.filter_append, List.filter_cons]
  split
  · exact processLines_skip env variant model bad hbad _ _ st
  · rfl

/-- Witness of C3: a comment line between a delta frame and the sentinel. -/
theorem bad_line_discarded_witness :
    (∀ l ∈ [frameLine helPayload], SingleLine l) ∧ (∀ l ∈ [doneLine], SingleLine l) ∧
    SingleLine ": keep-alive" ∧ BadLine demoEnv.parse ": keep-alive" ∧
    onData demoEnv Variant.generate (str "gpt-4") StreamState.init
        (joinLines ([frameLine helPayload] ++ ": keep-alive" :: [doneLine])) =
      onData demoEnv Variant.generate (str "gpt-4") StreamState.init
        (joinLines ([frameLine helPayload] ++ [doneLine])) := by
  have ha : ∀ l ∈ [frameLine helPayload], SingleLine l := by
    intro l hl
    rw [List.mem_singleton] at hl
    subst hl
    decide
  have hb : ∀ l ∈ [doneLine], SingleLine l := by
    intro l hl
    rw [List.mem_singleton] at hl
    subst hl
    decide
  have hc : SingleLine ": keep-alive" := by decide
  have hd : BadLine demoEnv.parse ": keep-alive" := Or.inl (by decide)
  exact ⟨ha, hb, hc, hd,
    bad_line_discarded demoEnv Variant.generate (str "gpt-4") StreamState.init
      [frameLine helPayload] [doneLine] ": keep-alive" ha hb hc hd⟩

/-! ## StreamReframer: chunks after the sentinel -/

theorem isTerminal_ollamaChunk (variant : Variant) (model : JsVal) (now : String)
    (content : JsVal) : isTerminal (ollamaChunk variant model now content) = false := by
  cases variant <;> simp [isTerminal, ollamaChunk, own_obj_cons, own_obj_nil]

theorem isTerminal_finalResponse (variant : Variant) (model : JsVal) (now : String)
    (fl : Rounding) (rnd : Nat → ℚ) (n : Nat) :
    isTerminal (finalResponse variant model now fl rnd n) = true := by
  cases variant <;> simp [isTerminal, finalResponse, own_obj_cons, own_obj_nil]

/-- Once the response is ended, an iteration of the loop sends nothing and the
response stays ended. -/
theorem onLine_ended (env : Env) (variant : Variant) (model : JsVal) (st : StreamState)
    (line : String) (hended : st.ended = true) :
    (onLine env variant model st line).1.writes = st.writes ∧
    (onLine env variant model st line).1.ended = true := by
  unfold onLine
  dsimp only
  split
  · split
    · exact ⟨by simp [hended, resWrite_ended], rfl⟩
    · split
      · exact ⟨rfl, hended⟩
      · split
        · exact ⟨rfl, hended⟩
        · split
          · split
            · exact ⟨by simp [hended, resWrite_ended], hended⟩
            · exact ⟨rfl, hended⟩
          · exact ⟨rfl, hended⟩
  · exact ⟨rfl, hended⟩

theorem processLines_ended (env : Env) (variant : Variant) (model : JsVal)
    (lines : List String) :
    ∀ st, st.ended = true →
      (processLines env variant model st lines).writes = st.writes ∧
      (processLines env variant model st lines).ended = true := by
  induction lines with
  | nil => intro st h; exact ⟨rfl, h⟩
  | cons line rest ih =>
    intro st h
    obtain ⟨h1, h2⟩ := onLine_ended env variant model st line h
    rw [processLines_cons]
    split
    · exact ⟨h1, h2⟩
    · obtain ⟨h3, h4⟩ := ih _ h2
      exact ⟨h3.trans h1, h4⟩

/-- Once the response is ended, further raw chunks send nothing. -/
theorem feed_ended (env : Env) (variant : Variant) (model : JsVal) (chunks : List String) :
    ∀ st, st.ended = true →
      (feed env variant model st chunks).writes = st.writes ∧
      (feed env variant model st chunks).ended = true := by
  induction chunks with
  | nil => intro st h; exact ⟨rfl, h⟩
  | cons chunk rest ih =>
    intro st h
    obtain ⟨h1, h2⟩ := processLines_ended env variant model (chunkLines chunk) st h
    obtain ⟨h3, h4⟩ := ih (onData env variant model st chunk) h2
    unfold feed at h3 h4 ⊢
    rw [List.foldl_cons]
    exact ⟨h3.trans h1, h4⟩

theorem terminalLast_onLine (env : Env) (variant : Variant) (model : JsVal)
    (st : StreamState) (line : String) (hst : TerminalLast st) :
    TerminalLast (onLine env variant model st line).1 := by
  cases hended : st.ended with
  | true =>
    obtain ⟨h1, h2⟩ := onLine_ended env variant model st line hended
    refine ⟨fun h => ?_, ?_⟩
    · rw [h2] at h
      cases h
    · rw [h1]
      exact hst.2
  | false =>
    have hopen := hst.1 hended
    unfold TerminalLast onLine
    dsimp only
    split
    · split
      · constructor
        · intro h
          cases h
        · simp only [hended, resWrite_open, List.dropLast_concat]
          exact hopen
      · split
        · exact hst
        · split
          · exact hst
          · split
            · split
              · constructor
                · intro _
                  simp only [hended, resWrite_open]
                  intro c hc
                  rw [List.mem_append, List.mem_singleton] at hc
                  rcases hc with hc | hc
                  · exact hopen c hc
                  · subst hc
                    exact isTerminal_ollamaChunk _ _ _ _
                · simp only [hended, resWrite_open, List.dropLast_concat]
                  exact hopen
              · exact hst
            · exact hst
    · exact hst

theorem terminalLast_processLines (env : Env) (variant : Variant) (model : JsVal)
    (lines : List String) :
    ∀ st, TerminalLast st → TerminalLast (processLines env variant model st lines) := by
  induction lines with
  | nil => intro st h; exact h
  | cons line rest ih =>
    intro st h
    have hstep := terminalLast_onLine env variant model st line h
    rw [processLines_cons]
    split
    · exact hstep
    · exact ih _ hstep

theorem terminalLast_feed (env : Env) (variant : Variant) (model : JsVal)
    (chunks : List String) :
    ∀ st, TerminalLast st → TerminalLast (feed env variant model st chunks) := by
  induction chunks with
  | nil => intro st h; exact h
  | cons chunk rest ih =>
    intro st h
    unfold feed
    rw [List.foldl_cons]
    exact ih _ (terminalLast_processLines env variant model _ st h)

theorem terminalCount_le_one (sent : List JsVal)
    (h : ∀ c ∈ sent.dropLast, isTerminal c = false) : terminalCount sent ≤ 1 := by
  unfold terminalCount
  rcases List.eq_nil_or_concat sent with hnil | ⟨front, last, hsent⟩
  · subst hnil
    simp
  · subst hsent
    rw [List.concat_eq_append] at h ⊢
    rw [List.dropLast_concat] at h
    have hfront : front.filter isTerminal = [] := by
      rw [List.filter_eq_nil_iff]
      intro c hc
      simp [h c hc]
    rw [List.filter_append, hfront, List.nil_append]
    exact (List.length_filter_le _ _).trans (by simp)

/-- C2. For every sequence of raw chunks fed to either `'data'` handler, at most
one terminal chunk (done = true) is sent, a terminal chunk is the last chunk
sent, and once a terminal chunk has been sent no further chunk is sent,
whatever raw chunks arrive afterwards: `res.end()` has ended the response, which
then refuses every `res.write`. -/
theorem one_terminal_chunk (env : Env) (variant : Variant) (model : JsVal)
    (chunks more : List String) :
    terminalCount (feed env variant model StreamState.init chunks).writes ≤ 1 ∧
    (∀ c ∈ (feed env variant model StreamState.init chunks).writes.dropLast,
      isTerminal c = false) ∧
    ((∃ c ∈ (feed env variant model StreamState.init chunks).writes, isTerminal c = true) →
      (feed env variant model StreamState.init (chunks ++ more)).writes =
        (feed env variant model StreamState.init chunks).writes) := by
  have hinit : TerminalLast StreamState.init :=
    ⟨fun _ c hc => by simp [StreamState.init] at hc,
     fun c hc => by simp [StreamState.init] at hc⟩
  have hinv := terminalLast_feed env variant model chunks StreamState.init hinit
  refine ⟨terminalCount_le_one _ hinv.2, hinv.2, ?_⟩
  rintro ⟨c, hc, hterm⟩
  have hended : (feed env variant model StreamState.init chunks).ended = true := by
    cases h : (feed env variant model StreamState.init chunks).ended with
    | true => rfl
    | false =>
      have := hinv.1 h c hc
      rw [hterm] at this
      cases this
  have happ : feed env variant model StreamState.init (chunks ++ more) =
      feed env variant model (feed env variant model StreamState.init chunks) more := by
    simp [feed, List.foldl_append]
  rw [happ]
  exact (feed_ended env variant model more _ hended).1

/-- Witness of C2: after the sentinel frame, a second sentinel frame and a
content frame arrive in later raw chunks; one terminal chunk is sent and
nothing after it. -/
theorem one_terminal_chunk_witness :
    (∃ c ∈ (feed demoEnv Variant.chat (str "gpt-4") StreamState.init
        ["data: [DONE]\n\n"]).writes, isTerminal c = true) ∧
    (feed demoEnv Variant.chat (str "gpt-4") StreamState.init
        (["data: [DONE]\n\n"] ++
          ["data: [DONE]\n\n", renderLines 1 [frameLine helPayload]])).writes.map isTerminal =
      [true] := by
  have hsent : ∃ c ∈ (feed demoEnv Variant.chat (str "gpt-4") StreamState.init
      ["data: [DONE]\n\n"]).writes, isTerminal c = true :=
    ⟨_, List.mem_singleton.mpr rfl, rfl⟩
  refine ⟨hsent, ?_⟩
  rw [(one_terminal_chunk demoEnv Variant.chat (str "gpt-4") ["data: [DONE]\n\n"]
    ["data: [DONE]\n\n", renderLines 1 [frameLine helPayload]]).2.2 hsent]
  rfl

/-! ## StreamReframer: where a raw chunk is cut -/

theorem splitNewline_ne_nil (cs : List Char) : splitNewline cs ≠ [] := by
  induction cs with
  | nil => simp [splitNewline]
  | cons c cs ih =>
    unfold splitNewline
    split
    · simp
    · split <;> simp

/-- Splitting at a newline splits the list of lines. -/
theorem splitNewline_append_newline (x y : List Char) :
    splitNewline (x ++ '\n' :: y) = splitNewline x ++ splitNewline y := by
  induction x with
  | nil => simp [splitNewline]
  | cons c x ih =>
    by_cases hc : c = '\n'
    · rw [List.cons_append, splitNewline, if_pos hc, ih, splitNewline, if_pos hc,
        List.cons_append]
    · rw [List.cons_append, splitNewline, if_neg hc, ih, splitNewline, if_neg hc]
      cases hx : splitNewline x with
      | nil => exact absurd hx (splitNewline_ne_nil x)
      | cons l ls => simp

theorem chunkLines_append_newline (a b : String) :
    chunkLines (a ++ "\n" ++ b) = chunkLines a ++ chunkLines b := by
  rw [chunkLines_eq, chunkLines_eq, chunkLines_eq]
  have hdata : (a ++ "\n" ++ b).data = a.data ++ '\n' :: b.data := by
    simp [String.data_append]
  rw [hdata, splitNewline_append_newline, List.map_append, List.filter_append]

theorem chunkLines_empty : chunkLines "" = [] := rfl

theorem chunkLines_newline_right (a : String) : chunkLines (a ++ "\n") = chunkLines a := by
  have h := chunkLines_append_newline a ""
  rw [chunkLines_empty, List.append_nil] at h
  simpa using h

theorem chunkLines_newline_left (b : String) : chunkLines ("\n" ++ b) = chunkLines b := by
  have h := chunkLines_append_newline "" b
  rw [chunkLines_empty, List.nil_append] at h
  simpa using h

/-- Only the sentinel frame makes an iteration of the loop `return`. -/
theorem onLine_returns (env : Env) (variant : Variant) (model : JsVal) (st : StreamState)
    (line : String) (h : (onLine env variant model st line).2 = true) : line = doneLine := by
  unfold onLine at h
  dsimp only at h
  split at h
  · rename_i hstart
    split at h
    · rename_i hdone
      have hpre : "data: ".data <+: line.data := List.isPrefixOf_iff_prefix.mp hstart
      have happ := List.prefix_iff_eq_append.mp hpre
      have hdrop : line.data.drop 6 = "[DONE]".data := by
        have := congrArg String.data hdone
        simpa [slice6] using this
      have hlen : "data: ".data.length = 6 := by decide
      rw [hlen, hdrop] at happ
      have hline : line = String.mk ("data: ".data ++ "[DONE]".data) := by
        rw [happ]
      rw [hline]
      decide
    · split at h
      · simp at h
      · split at h
        · simp at h
        · split at h
          · split at h <;> simp at h
          · simp at h
  · simp at h

/-- The loop over lines none of which is the sentinel frame runs to its end,
so the lines after them are processed from the state it leaves. -/
theorem processLines_append (env : Env) (variant : Variant) (model : JsVal)
    (first second : List String) (hfirst : doneLine ∉ first) :
    ∀ st, processLines env variant model st (first ++ second) =
      processLines env variant model (processLines env variant model st first) second := by
  induction first with
  | nil => intro st; rfl
  | cons l rest ih =>
    intro st
    have hl : (onLine env variant model st l).2 = false := by
      cases hret : (onLine env variant model st l).2 with
      | false => rfl
      | true =>
        exact absurd (onLine_returns env variant model st l hret).symm
          (fun h => hfirst (by simp [h]))
    have hrest : doneLine ∉ rest := fun h => hfirst (by simp [h])
    rw [List.cons_append, processLines_cons, processLines_cons, hl]
    simp only [Bool.false_eq_true, if_false]
    exact ih hrest _

theorem onData_empty (env : Env) (variant : Variant) (model : JsVal) (st : StreamState) :
    onData env variant model st "" = st := rfl

/-- C11 (amended). The chunks written do not depend on where the upstream text
is cut into two raw chunks, as long as the cut is at a line boundary: for every
text with no `data: [DONE]` line and every position that is an end of the text
or comes directly after or directly before a newline, feeding the two pieces in
order leaves the same state (the same chunks written and the same token
counter) as feeding the whole text as one raw chunk. -/
theorem line_boundary_split (env : Env) (variant : Variant) (model : JsVal) (st : StreamState)
    (a b : String) (hcut : LineBoundary a b) (hdone : doneLine ∉ chunkLines (a ++ b)) :
    feed env variant model st [a, b] = feed env variant model st [a ++ b] := by
  have hfeed2 : feed env variant model st [a, b] =
      onData env variant model (onData env variant model st a) b := rfl
  have hfeed1 : feed env variant model st [a ++ b] = onData env variant model st (a ++ b) := rfl
  rw [hfeed2, hfeed1]
  rcases hcut with ha | hb | hlast | hhead
  · subst ha
    rw [onData_empty]
    simp
  · subst hb
    rw [onData_empty]
    simp
  · obtain ⟨ys, hys⟩ := List.getLast?_eq_some_iff.mp hlast
    have ha : a = String.mk ys ++ "\n" := by
      apply String.ext
      simp [hys, String.data_append]
    subst ha
    rw [chunkLines_append_newline] at hdone
    unfold onData
    rw [chunkLines_append_newline, chunkLines_newline_right]
    exact (processLines_append env variant model _ _
      (fun h => hdone (List.mem_append_left _ h)) st).symm
  · obtain ⟨ys, hys⟩ := List.head?_eq_some_iff.mp hhead
    have hb : b = "\n" ++ String.mk ys := by
      apply String.ext
      simp [hys, String.data_append]
    subst hb
    have hassoc : a ++ ("\n" ++ String.mk ys) = a ++ "\n" ++ String.mk ys := by
      rw [String.append_assoc]
    rw [hassoc] at hdone ⊢
    rw [chunkLines_append_newline] at hdone
    unfold onData
    rw [chunkLines_append_newline, chunkLines_newline_left]
    exact (processLines_append env variant model _ _
      (fun h => hdone (List.mem_append_left _ h)) st).symm

/-- Witness of C11: the text of the two example frames, cut between them. -/
theorem line_boundary_split_witness :
    LineBoundary (renderLines 1 [frameLine helPayload]) (renderLines 1 [frameLine loPayload]) ∧
    doneLine ∉ chunkLines
      (renderLines 1 [frameLine helPayload] ++ renderLines 1 [frameLine loPayload]) ∧
    feed demoEnv Variant.chat (str "gpt-4") StreamState.init
        [renderLines 1 [frameLine helPayload], renderLines 1 [frameLine loPayload]] =
      feed demoEnv Variant.chat (str "gpt-4") StreamState.init
        [renderLines 1 [frameLine helPayload] ++ renderLines 1 [frameLine loPayload]] :=
  ⟨by decide, by decide,
    line_boundary_split demoEnv Variant.chat (str "gpt-4") StreamState.init
      (renderLines 1 [frameLine helPayload]) (renderLines 1 [frameLine loPayload])
      (by decide) (by decide)⟩

/-- Counterexample to C11 as stated: the raw chunk that delivers the frame with
content `Hel` holds no sentinel and, fed whole, gives one chunk `Hel` and the
counter 1; cut after its tenth character, inside the payload, its two pieces
give no chunk and leave the counter at 0. -/
theorem cut_frame_lost :
    cutHead ++ cutTail = renderLines 1 [frameLine helPayload] ∧
    doneLine ∉ chunkLines (cutHead ++ cutTail) ∧
    (feed demoEnv Variant.chat (str "gpt-4") StreamState.init
        [cutHead ++ cutTail]).writes.map (chunkView Variant.chat) =
      [(JsVal.bool false, str "Hel", undefined)] ∧
    (feed demoEnv Variant.chat (str "gpt-4") StreamState.init
        [cutHead ++ cutTail]).totalTokens = 1 ∧
    (feed demoEnv Variant.chat (str "gpt-4") StreamState.init
        [cutHead, cutTail]).writes.map (chunkView Variant.chat) = [] ∧
    (feed demoEnv Variant.chat (str "gpt-4") StreamState.init
        [cutHead, cutTail]).totalTokens = 0 :=
  ⟨by decide, by decide, rfl, by decide, rfl, by decide⟩

end OpenAI2Ollama
